import Mathlib

/-!
Verification of the terminal-emulation core of the `cltree` terminal
multiplexer (`src/vterm.rs`, `src/terminal.rs`).

The development shallowly embeds the Rust source:

* Machine values are `Nat` (byte values 0..255, code points, `usize`
  quantities).  `u16` CSI parameters saturate at 65535 exactly as the
  `vte` parameter accumulator does; `as u8` casts become `% 256`.
* Rust `Vec` operations that can panic (`remove`, `insert`, index
  assignment) are modelled in an `Option` monad: `none` is a Rust panic.
  A `feed` that returns `none` corresponds to a program abort.
* Strings stored in grid cells are lists of code points; byte strings are
  lists of byte values.
* The byte-level escape-sequence parser is the `vte` crate, which is not
  part of this repository; it is modelled from the spec (Paul-Williams
  VT-500 state machine, UTF-8 with U+FFFD replacement).  Everything else
  is translated directly from `src/vterm.rs` / `src/terminal.rs`.
-/

/-! ## List helpers modelling `Vec` operations -/

/-- `Vec::remove(i)`: returns the removed element and the remaining list;
`none` models the Rust panic when `i` is out of bounds. -/
def removeAt? (l : List α) (i : Nat) : Option (α × List α) :=
  match l[i]? with
  | none => none
  | some a => some (a, l.take i ++ l.drop (i + 1))

/-- `Vec::insert(i, a)`: `none` models the Rust panic when `i > len`. -/
def insertAt? (l : List α) (i : Nat) (a : α) : Option (List α) :=
  if i ≤ l.length then some (l.take i ++ a :: l.drop i) else none

/-- Overwrite the elements with indices in `[a, b)` by `x`, keeping the
rest; models a Rust `for c in a..b { l[c] = x }` loop body (the bounds
check is done by the caller). -/
def setRangeAux (a b : Nat) (x : α) : Nat → List α → List α
  | _, [] => []
  | i, y :: ys => (if a ≤ i ∧ i < b then x else y) :: setRangeAux a b x (i + 1) ys

/-- Iterate a fallible state transformer `n` times (a Rust
`for _ in 0..n` loop whose body may panic). -/
def iterM (f : σ → Option σ) : Nat → σ → Option σ
  | 0, s => some s
  | n + 1, s =>
    match f s with
    | none => none
    | some s' => iterM f n s'

/-! ## Data model (`Cell`, `Style`, `CursorState`) from `src/vterm.rs` -/

/-- ratatui `Modifier` bit set (the six modifiers the VT uses). -/
structure Modifier where
  bold : Bool
  dim : Bool
  italic : Bool
  underlined : Bool
  reversed : Bool
  crossedOut : Bool
deriving DecidableEq, Repr

def Modifier.empty : Modifier := ⟨false, false, false, false, false, false⟩

def Modifier.union (a b : Modifier) : Modifier :=
  ⟨a.bold || b.bold, a.dim || b.dim, a.italic || b.italic,
   a.underlined || b.underlined, a.reversed || b.reversed,
   a.crossedOut || b.crossedOut⟩

def Modifier.diff (a b : Modifier) : Modifier :=
  ⟨a.bold && !b.bold, a.dim && !b.dim, a.italic && !b.italic,
   a.underlined && !b.underlined, a.reversed && !b.reversed,
   a.crossedOut && !b.crossedOut⟩

def mBold : Modifier := { Modifier.empty with bold := true }

def mDim : Modifier := { Modifier.empty with dim := true }

def mItalic : Modifier := { Modifier.empty with italic := true }

def mUnderlined : Modifier := { Modifier.empty with underlined := true }

def mReversed : Modifier := { Modifier.empty with reversed := true }

def mCrossedOut : Modifier := { Modifier.empty with crossedOut := true }

/-- ratatui `Color`. -/
inductive Color where
  | reset | black | red | green | yellow | blue | magenta | cyan | gray
  | darkGray | lightRed | lightGreen | lightYellow | lightBlue
  | lightMagenta | lightCyan | white
  | indexed (n : Nat)
  | rgb (r g b : Nat)
deriving DecidableEq, Repr

/-- ratatui `Style` as a patch: optional fg/bg and add/sub modifier sets. -/
structure Style where
  fg : Option Color
  bg : Option Color
  add_modifier : Modifier
  sub_modifier : Modifier
deriving DecidableEq, Repr

def Style.default : Style := ⟨none, none, Modifier.empty, Modifier.empty⟩

def Style.addMod (s : Style) (m : Modifier) : Style :=
  { s with sub_modifier := s.sub_modifier.diff m,
           add_modifier := s.add_modifier.union m }

def Style.removeMod (s : Style) (m : Modifier) : Style :=
  { s with add_modifier := s.add_modifier.diff m,
           sub_modifier := s.sub_modifier.union m }

def Style.bold (s : Style) : Style := s.addMod mBold

def Style.dim (s : Style) : Style := s.addMod mDim

def Style.italic (s : Style) : Style := s.addMod mItalic

def Style.underlined (s : Style) : Style := s.addMod mUnderlined

def Style.reversed (s : Style) : Style := s.addMod mReversed

def Style.crossedOut (s : Style) : Style := s.addMod mCrossedOut

def Style.notBold (s : Style) : Style := s.removeMod mBold

def Style.notDim (s : Style) : Style := s.removeMod mDim

def Style.notItalic (s : Style) : Style := s.removeMod mItalic

def Style.notUnderlined (s : Style) : Style := s.removeMod mUnderlined

def Style.notReversed (s : Style) : Style := s.removeMod mReversed

def Style.notCrossedOut (s : Style) : Style := s.removeMod mCrossedOut

def Style.setFg (s : Style) (c : Color) : Style := { s with fg := some c }

def Style.setBg (s : Style) (c : Color) : Style := { s with bg := some c }

/-- One grid position: grapheme cluster (list of code points; empty list
marks the continuation cell of a wide glyph) plus a style. -/
structure Cell where
  ch : List Nat
  style : Style
deriving DecidableEq, Repr

/-- `Cell::default()`: a single space with the default style. -/
def Cell.blank : Cell := ⟨[0x20], Style.default⟩

structure CursorState where
  x : Nat
  y : Nat
  visible : Bool
deriving DecidableEq, Repr

def CursorState.default : CursorState := ⟨0, 0, true⟩

/-- The `VirtualTerminal` state (the `vte::Parser` field lives outside
this structure; `feed` threads it alongside, see `PState`). -/
structure VirtualTerminal where
  grid : List (List Cell)
  cols : Nat
  rows : Nat
  cursor : CursorState
  current_style : Style
  scrollback : List (List Cell)
  scroll_offset : Nat
  saved_cursor : Option CursorState
  saved_grid : Option (List (List Cell))
  saved_scrollback : Option (List (List Cell))
  saved_main_cursor : Option CursorState
  scroll_top : Nat
  scroll_bottom : Nat
  response_queue : List (List Nat)
  reported_cwd : Option (List Nat)
deriving DecidableEq, Repr

def MAX_SCROLLBACK : Nat := 1000

def make_grid (cols rows : Nat) : List (List Cell) :=
  List.replicate rows (List.replicate cols Cell.blank)

def VirtualTerminal.new (cols rows : Nat) : VirtualTerminal :=
  { grid := make_grid cols rows
    cols := cols
    rows := rows
    cursor := CursorState.default
    current_style := Style.default
    scrollback := []
    scroll_offset := 0
    saved_cursor := none
    saved_grid := none
    saved_scrollback := none
    saved_main_cursor := none
    scroll_top := 0
    scroll_bottom := rows
    response_queue := []
    reported_cwd := none }

def VirtualTerminal.make_row (vt : VirtualTerminal) : List Cell :=
  List.replicate vt.cols Cell.blank

/-! ## Grid write primitives (panic-aware) -/

/-- `grid[y][x] = cell`; `none` models the Rust index panic. -/
def setCell (g : List (List Cell)) (y x : Nat) (c : Cell) :
    Option (List (List Cell)) :=
  match g[y]? with
  | none => none
  | some row => if x < row.length then some (g.set y (row.set x c)) else none

/-- `for c in a..b { grid[y][c] = cell }`.  An empty range touches
nothing; otherwise the row is indexed and the loop panics (`none`) when
the row is too short. -/
def writeCells (g : List (List Cell)) (y a b : Nat) (c : Cell) :
    Option (List (List Cell)) :=
  if b ≤ a then some g
  else
    match g[y]? with
    | none => none
    | some row =>
      if b ≤ row.length then some (g.set y (setRangeAux a b c 0 row)) else none

/-- `for r in a..b { grid[r] = row }`. -/
def writeRows (g : List (List Cell)) (a b : Nat) (row : List Cell) :
    Option (List (List Cell)) :=
  if b ≤ a then some g
  else if b ≤ g.length then some (setRangeAux a b row 0 g) else none

/-! ## Display width (modelled from the spec)

`unicode_width::UnicodeWidthChar::width` is an external crate.  Modelled
from the spec: a code point displays in 0, 1 or 2 cells; control
characters have no width (`none`); combining marks and variation
selectors are zero width; East-Asian wide ranges are width 2. -/

def isZeroWidthCp (cp : Nat) : Bool :=
  (0x0300 ≤ cp && cp ≤ 0x036F) || (0x0483 ≤ cp && cp ≤ 0x0489) ||
  (0x1AB0 ≤ cp && cp ≤ 0x1AFF) || (0x20D0 ≤ cp && cp ≤ 0x20FF) ||
  (0xFE00 ≤ cp && cp ≤ 0xFE0F) || (0xFE20 ≤ cp && cp ≤ 0xFE2F) ||
  cp = 0x200B || cp = 0x200C || cp = 0x200D

def isWideCp (cp : Nat) : Bool :=
  (0x1100 ≤ cp && cp ≤ 0x115F) || (0x2E80 ≤ cp && cp ≤ 0x303E) ||
  (0x3041 ≤ cp && cp ≤ 0x33FF) || (0x3400 ≤ cp && cp ≤ 0x4DBF) ||
  (0x4E00 ≤ cp && cp ≤ 0x9FFF) || (0xA000 ≤ cp && cp ≤ 0xA4CF) ||
  (0xAC00 ≤ cp && cp ≤ 0xD7A3) || (0xF900 ≤ cp && cp ≤ 0xFAFF) ||
  (0xFE30 ≤ cp && cp ≤ 0xFE4F) || (0xFF00 ≤ cp && cp ≤ 0xFF60) ||
  (0xFFE0 ≤ cp && cp ≤ 0xFFE6) ||
  (0x20000 ≤ cp && cp ≤ 0x2FFFD) || (0x30000 ≤ cp && cp ≤ 0x3FFFD)

def charWidthOpt (cp : Nat) : Option Nat :=
  if cp < 0x20 ∨ (0x7F ≤ cp ∧ cp < 0xA0) then none
  else if isZeroWidthCp cp then some 0
  else if isWideCp cp then some 2
  else some 1

/-! ## VirtualTerminal operations from `src/vterm.rs` -/

namespace VirtualTerminal

/-- `scroll_up`: scroll within the scroll region up by one line
(`src/vterm.rs:187`). -/
def scroll_up (vt : VirtualTerminal) : Option VirtualTerminal :=
  if vt.rows = 0 ∨ vt.scroll_bottom ≤ vt.scroll_top then some vt
  else
    match removeAt? vt.grid vt.scroll_top with
    | none => none
    | some (removed, g1) =>
      let sb :=
        if vt.scroll_top = 0 then
          let sb1 := vt.scrollback ++ [removed]
          if MAX_SCROLLBACK < sb1.length then sb1.drop 1 else sb1
        else vt.scrollback
      let insert_pos := min (vt.scroll_bottom - 1) g1.length
      match insertAt? g1 insert_pos vt.make_row with
      | none => none
      | some g2 => some { vt with grid := g2, scrollback := sb }

/-- `scroll_down`: scroll within the scroll region down by one line
(`src/vterm.rs:205`). -/
def scroll_down (vt : VirtualTerminal) : Option VirtualTerminal :=
  if vt.rows = 0 ∨ vt.scroll_bottom ≤ vt.scroll_top then some vt
  else
    let remove_pos := min (vt.scroll_bottom - 1) (vt.grid.length - 1)
    match removeAt? vt.grid remove_pos with
    | none => none
    | some (_, g1) =>
      match insertAt? g1 vt.scroll_top vt.make_row with
      | none => none
      | some g2 => some { vt with grid := g2 }

/-- The body of `put_char` after the zero-width branch and the wrap
check: write the glyph at the cursor, advance, and lay down a
continuation cell for a wide glyph (`src/vterm.rs:243`). -/
def put_char_write (vt : VirtualTerminal) (cp w : Nat) : Option VirtualTerminal :=
  let v2opt :=
    if vt.cursor.y < vt.rows ∧ vt.cursor.x < vt.cols then
      match setCell vt.grid vt.cursor.y vt.cursor.x
          { ch := [cp], style := vt.current_style } with
      | none => none
      | some g => some { vt with grid := g }
    else some vt
  match v2opt with
  | none => none
  | some v2 =>
    let v3 := { v2 with cursor := { v2.cursor with x := v2.cursor.x + 1 } }
    if w = 2 ∧ v3.cursor.x < v3.cols then
      match setCell v3.grid v3.cursor.y v3.cursor.x
          { ch := [], style := v3.current_style } with
      | none => none
      | some g =>
        some { v3 with grid := g, cursor := { v3.cursor with x := v3.cursor.x + 1 } }
    else some v3

/-- `put_char` (`src/vterm.rs:216`). -/
def put_char (vt : VirtualTerminal) (cp : Nat) : Option VirtualTerminal :=
  let cw := charWidthOpt cp
  if cw = some 0 ∨ cw = none then
    -- combining / zero-width characters merge into the previous cell
    if 0 < vt.cursor.x ∧ vt.cursor.y < vt.rows then
      let prev_x := vt.cursor.x - 1
      match vt.grid[vt.cursor.y]? with
      | none => none
      | some row =>
        match row[prev_x]? with
        | none => none
        | some cell =>
          if cell.ch = [] ∧ 0 < prev_x then
            match row[prev_x - 1]? with
            | none => none
            | some cell2 =>
              some { vt with grid :=
                (vt.grid.set vt.cursor.y
                  (row.set (prev_x - 1) { cell2 with ch := cell2.ch ++ [cp] })) }
          else
            some { vt with grid :=
              (vt.grid.set vt.cursor.y
                (row.set prev_x { cell with ch := cell.ch ++ [cp] })) }
    else some vt
  else
    let wrapped :=
      if vt.cols ≤ vt.cursor.x then
        -- line wrap
        let v1 := { vt with cursor := { vt.cursor with x := 0, y := vt.cursor.y + 1 } }
        if vt.rows ≤ v1.cursor.y then
          match v1.scroll_up with
          | none => none
          | some v2 => some { v2 with cursor := { v2.cursor with y := v2.rows - 1 } }
        else some v1
      else some vt
    match wrapped with
    | none => none
    | some v1 => v1.put_char_write cp (cw.getD 1)

/-- `erase_in_display` (`src/vterm.rs:374`). -/
def erase_in_display (vt : VirtualTerminal) (mode : Nat) : Option VirtualTerminal :=
  match mode with
  | 0 =>
    match writeCells vt.grid vt.cursor.y vt.cursor.x vt.cols Cell.blank with
    | none => none
    | some g1 =>
      match writeRows g1 (vt.cursor.y + 1) vt.rows vt.make_row with
      | none => none
      | some g2 => some { vt with grid := g2 }
  | 1 =>
    match writeRows vt.grid 0 vt.cursor.y vt.make_row with
    | none => none
    | some g1 =>
      -- `for c in 0..=cursor.x.min(cols - 1)`: inclusive, always indexes
      match writeCells g1 vt.cursor.y 0 (min vt.cursor.x (vt.cols - 1) + 1)
          Cell.blank with
      | none => none
      | some g2 => some { vt with grid := g2 }
  | 2 | 3 =>
    match writeRows vt.grid 0 vt.rows vt.make_row with
    | none => none
    | some g => some { vt with grid := g }
  | _ => some vt

/-- `erase_in_line` (`src/vterm.rs:408`). -/
def erase_in_line (vt : VirtualTerminal) (mode : Nat) : Option VirtualTerminal :=
  if vt.rows ≤ vt.cursor.y then some vt
  else
    match mode with
    | 0 =>
      match writeCells vt.grid vt.cursor.y vt.cursor.x vt.cols Cell.blank with
      | none => none
      | some g => some { vt with grid := g }
    | 1 =>
      match writeCells vt.grid vt.cursor.y 0 (min vt.cursor.x (vt.cols - 1) + 1)
          Cell.blank with
      | none => none
      | some g => some { vt with grid := g }
    | 2 =>
      match vt.grid[vt.cursor.y]? with
      | none => none
      | some _ => some { vt with grid := vt.grid.set vt.cursor.y vt.make_row }
    | _ => some vt

/-- One iteration of the `insert_lines` loop (`bottom` is computed once
before the loop in the source). -/
def insert_lines_step (bottom : Nat) (vt : VirtualTerminal) : Option VirtualTerminal :=
  if vt.scroll_top ≤ vt.cursor.y ∧ vt.cursor.y < bottom ∧ 0 < bottom then
    let remove_pos := min (bottom - 1) (vt.grid.length - 1)
    match removeAt? vt.grid remove_pos with
    | none => none
    | some (_, g1) =>
      match insertAt? g1 vt.cursor.y vt.make_row with
      | none => none
      | some g2 => some { vt with grid := g2 }
  else some vt

/-- `insert_lines` (`src/vterm.rs:433`). -/
def insert_lines (vt : VirtualTerminal) (count : Nat) : Option VirtualTerminal :=
  iterM (insert_lines_step (min vt.scroll_bottom vt.grid.length)) count vt

/-- One iteration of the `delete_lines` loop. -/
def delete_lines_step (bottom : Nat) (vt : VirtualTerminal) : Option VirtualTerminal :=
  if vt.scroll_top ≤ vt.cursor.y ∧ vt.cursor.y < bottom then
    match removeAt? vt.grid vt.cursor.y with
    | none => none
    | some (_, g1) =>
      let insert_pos := min (bottom - 1) g1.length
      match insertAt? g1 insert_pos vt.make_row with
      | none => none
      | some g2 => some { vt with grid := g2 }
  else some vt

/-- `delete_lines` (`src/vterm.rs:446`). -/
def delete_lines (vt : VirtualTerminal) (count : Nat) : Option VirtualTerminal :=
  iterM (delete_lines_step (min vt.scroll_bottom vt.grid.length)) count vt

/-- Pure body of the `delete_chars` loop on the borrowed row. -/
def delete_chars_row (x : Nat) : Nat → List Cell → List Cell
  | 0, row => row
  | n + 1, row =>
    if x < row.length then
      delete_chars_row x n ((row.take x ++ row.drop (x + 1)) ++ [Cell.blank])
    else delete_chars_row x n row

/-- `delete_chars` (`src/vterm.rs:458`): the row is borrowed (indexed)
before the loop, so an out-of-range `cursor.y` below `rows` panics. -/
def delete_chars (vt : VirtualTerminal) (count : Nat) : Option VirtualTerminal :=
  if vt.rows ≤ vt.cursor.y then some vt
  else
    match vt.grid[vt.cursor.y]? with
    | none => none
    | some row =>
      some { vt with grid :=
        (vt.grid.set vt.cursor.y (delete_chars_row vt.cursor.x count row)) }

/-- Pure body of the `insert_chars` loop on the borrowed row. -/
def insert_chars_row (x cols : Nat) : Nat → List Cell → List Cell
  | 0, row => row
  | n + 1, row =>
    if x < row.length then
      insert_chars_row x cols n ((row.take x ++ Cell.blank :: row.drop x).take cols)
    else insert_chars_row x cols n row

/-- `insert_chars` (`src/vterm.rs:471`). -/
def insert_chars (vt : VirtualTerminal) (count : Nat) : Option VirtualTerminal :=
  if vt.rows ≤ vt.cursor.y then some vt
  else
    match vt.grid[vt.cursor.y]? with
    | none => none
    | some row =>
      some { vt with grid :=
        (vt.grid.set vt.cursor.y (insert_chars_row vt.cursor.x vt.cols count row)) }

/-- `erase_chars` (`src/vterm.rs:484`): touches `grid[y][x+i]` for every
`i < count` with `x + i < cols`. -/
def erase_chars (vt : VirtualTerminal) (count : Nat) : Option VirtualTerminal :=
  if vt.rows ≤ vt.cursor.y then some vt
  else
    match writeCells vt.grid vt.cursor.y vt.cursor.x
        (min (vt.cursor.x + count) vt.cols) Cell.blank with
    | none => none
    | some g => some { vt with grid := g }

/-- `enter_alternate_screen` (`src/vterm.rs:496`). -/
def enter_alternate_screen (vt : VirtualTerminal) : VirtualTerminal :=
  { vt with
    saved_grid := some vt.grid
    saved_scrollback := some vt.scrollback
    saved_main_cursor := some vt.cursor
    grid := make_grid vt.cols vt.rows
    scrollback := []
    cursor := CursorState.default }

/-- `if let Some(grid) = self.saved_grid.take()` (`src/vterm.rs:506`). -/
def restore_grid (vt : VirtualTerminal) : VirtualTerminal :=
  match vt.saved_grid with
  | some g => { vt with grid := g, saved_grid := none }
  | none => vt

/-- `if let Some(scrollback) = self.saved_scrollback.take()` (`:509`). -/
def restore_scrollback (vt : VirtualTerminal) : VirtualTerminal :=
  match vt.saved_scrollback with
  | some sb => { vt with scrollback := sb, saved_scrollback := none }
  | none => vt

/-- `if let Some(cursor) = self.saved_main_cursor.take()` (`:512`). -/
def restore_main_cursor (vt : VirtualTerminal) : VirtualTerminal :=
  match vt.saved_main_cursor with
  | some cu => { vt with cursor := cu, saved_main_cursor := none }
  | none => vt

/-- `leave_alternate_screen` (`src/vterm.rs:505`): the three sequential
restores. -/
def leave_alternate_screen (vt : VirtualTerminal) : VirtualTerminal :=
  restore_main_cursor (restore_scrollback (restore_grid vt))

end VirtualTerminal

/-! ## SGR (`parse_sgr`, `src/vterm.rs:264`)

The parameter iterator is a list consumed left to right; `iter.next()`
inside codes 38/48 consumes extra parameters exactly as the source does
(`unwrap_or(0)` when the iterator is exhausted). -/

def parse_sgr_loop (st : Style) : List Nat → Style
  | [] => st
  | code :: rest =>
    match code with
    | 0 => parse_sgr_loop Style.default rest
    | 1 => parse_sgr_loop st.bold rest
    | 2 => parse_sgr_loop st.dim rest
    | 3 => parse_sgr_loop st.italic rest
    | 4 => parse_sgr_loop st.underlined rest
    | 7 => parse_sgr_loop st.reversed rest
    | 8 => parse_sgr_loop st rest
    | 9 => parse_sgr_loop st.crossedOut rest
    | 22 => parse_sgr_loop st.notBold.notDim rest
    | 23 => parse_sgr_loop st.notItalic rest
    | 24 => parse_sgr_loop st.notUnderlined rest
    | 27 => parse_sgr_loop st.notReversed rest
    | 29 => parse_sgr_loop st.notCrossedOut rest
    | 30 => parse_sgr_loop (st.setFg Color.black) rest
    | 31 => parse_sgr_loop (st.setFg Color.red) rest
    | 32 => parse_sgr_loop (st.setFg Color.green) rest
    | 33 => parse_sgr_loop (st.setFg Color.yellow) rest
    | 34 => parse_sgr_loop (st.setFg Color.blue) rest
    | 35 => parse_sgr_loop (st.setFg Color.magenta) rest
    | 36 => parse_sgr_loop (st.setFg Color.cyan) rest
    | 37 => parse_sgr_loop (st.setFg Color.white) rest
    | 38 =>
      match rest with
      | [] => st
      | sub :: rest2 =>
        match sub with
        | 5 =>
          match rest2 with
          | [] => st
          | idx :: rest3 => parse_sgr_loop (st.setFg (Color.indexed (idx % 256))) rest3
        | 2 =>
          match rest2 with
          | [] => parse_sgr_loop (st.setFg (Color.rgb 0 0 0)) []
          | r :: [] => parse_sgr_loop (st.setFg (Color.rgb (r % 256) 0 0)) []
          | r :: g :: [] => parse_sgr_loop (st.setFg (Color.rgb (r % 256) (g % 256) 0)) []
          | r :: g :: b :: rest3 =>
            parse_sgr_loop (st.setFg (Color.rgb (r % 256) (g % 256) (b % 256))) rest3
        | _ => parse_sgr_loop st rest2
    | 39 => parse_sgr_loop (st.setFg Color.reset) rest
    | 90 => parse_sgr_loop (st.setFg Color.darkGray) rest
    | 91 => parse_sgr_loop (st.setFg Color.lightRed) rest
    | 92 => parse_sgr_loop (st.setFg Color.lightGreen) rest
    | 93 => parse_sgr_loop (st.setFg Color.lightYellow) rest
    | 94 => parse_sgr_loop (st.setFg Color.lightBlue) rest
    | 95 => parse_sgr_loop (st.setFg Color.lightMagenta) rest
    | 96 => parse_sgr_loop (st.setFg Color.lightCyan) rest
    | 97 => parse_sgr_loop (st.setFg Color.white) rest
    | 40 => parse_sgr_loop (st.setBg Color.black) rest
    | 41 => parse_sgr_loop (st.setBg Color.red) rest
    | 42 => parse_sgr_loop (st.setBg Color.green) rest
    | 43 => parse_sgr_loop (st.setBg Color.yellow) rest
    | 44 => parse_sgr_loop (st.setBg Color.blue) rest
    | 45 => parse_sgr_loop (st.setBg Color.magenta) rest
    | 46 => parse_sgr_loop (st.setBg Color.cyan) rest
    | 47 => parse_sgr_loop (st.setBg Color.white) rest
    | 48 =>
      match rest with
      | [] => st
      | sub :: rest2 =>
        match sub with
        | 5 =>
          match rest2 with
          | [] => st
          | idx :: rest3 => parse_sgr_loop (st.setBg (Color.indexed (idx % 256))) rest3
        | 2 =>
          match rest2 with
          | [] => parse_sgr_loop (st.setBg (Color.rgb 0 0 0)) []
          | r :: [] => parse_sgr_loop (st.setBg (Color.rgb (r % 256) 0 0)) []
          | r :: g :: [] => parse_sgr_loop (st.setBg (Color.rgb (r % 256) (g % 256) 0)) []
          | r :: g :: b :: rest3 =>
            parse_sgr_loop (st.setBg (Color.rgb (r % 256) (g % 256) (b % 256))) rest3
        | _ => parse_sgr_loop st rest2
    | 49 => parse_sgr_loop (st.setBg Color.reset) rest
    | 100 => parse_sgr_loop (st.setBg Color.darkGray) rest
    | 101 => parse_sgr_loop (st.setBg Color.lightRed) rest
    | 102 => parse_sgr_loop (st.setBg Color.lightGreen) rest
    | 103 => parse_sgr_loop (st.setBg Color.lightYellow) rest
    | 104 => parse_sgr_loop (st.setBg Color.lightBlue) rest
    | 105 => parse_sgr_loop (st.setBg Color.lightMagenta) rest
    | 106 => parse_sgr_loop (st.setBg Color.lightCyan) rest
    | 107 => parse_sgr_loop (st.setBg Color.white) rest
    | _ => parse_sgr_loop st rest

def VirtualTerminal.parse_sgr (vt : VirtualTerminal) (p : List Nat) : VirtualTerminal :=
  { vt with current_style := parse_sgr_loop vt.current_style p }

/-! ## UTF-8 and percent decoding for OSC 7 -/

def isUtf8Cont (b : Nat) : Bool := 0x80 ≤ b && b ≤ 0xBF

/-- Strict UTF-8 decoding with the exact validity ranges of Rust
`str::from_utf8` (rejecting overlongs and surrogates). -/
def utf8Decode : List Nat → Option (List Nat)
  | [] => some []
  | b :: rest =>
    if b < 0x80 then (utf8Decode rest).map (b :: ·)
    else if 0xC2 ≤ b ∧ b ≤ 0xDF then
      match rest with
      | c1 :: r =>
        if isUtf8Cont c1 then (utf8Decode r).map (((b - 0xC0) * 64 + (c1 - 0x80)) :: ·)
        else none
      | [] => none
    else if 0xE0 ≤ b ∧ b ≤ 0xEF then
      match rest with
      | c1 :: c2 :: r =>
        let lo1 := if b = 0xE0 then 0xA0 else 0x80
        let hi1 := if b = 0xED then 0x9F else 0xBF
        if (lo1 ≤ c1 ∧ c1 ≤ hi1) ∧ isUtf8Cont c2 then
          (utf8Decode r).map
            (((b - 0xE0) * 4096 + (c1 - 0x80) * 64 + (c2 - 0x80)) :: ·)
        else none
      | _ => none
    else if 0xF0 ≤ b ∧ b ≤ 0xF4 then
      match rest with
      | c1 :: c2 :: c3 :: r =>
        let lo1 := if b = 0xF0 then 0x90 else 0x80
        let hi1 := if b = 0xF4 then 0x8F else 0xBF
        if (lo1 ≤ c1 ∧ c1 ≤ hi1) ∧ isUtf8Cont c2 ∧ isUtf8Cont c3 then
          (utf8Decode r).map
            (((b - 0xF0) * 262144 + (c1 - 0x80) * 4096 + (c2 - 0x80) * 64 + (c3 - 0x80)) :: ·)
        else none
      | _ => none
    else none

/-- Lossy UTF-8 decoding (`String::from_utf8_lossy`): invalid bytes
become U+FFFD.  The replacement granularity for truncated multi-byte
sequences is approximated (one replacement per offending byte); no
theorem depends on the decoded value of such inputs. -/
def utf8Lossy : List Nat → List Nat
  | [] => []
  | b :: rest =>
    if b < 0x80 then b :: utf8Lossy rest
    else if 0xC2 ≤ b ∧ b ≤ 0xDF then
      match rest with
      | c1 :: r =>
        if isUtf8Cont c1 then ((b - 0xC0) * 64 + (c1 - 0x80)) :: utf8Lossy r
        else 0xFFFD :: utf8Lossy (c1 :: r)
      | [] => [0xFFFD]
    else if 0xE0 ≤ b ∧ b ≤ 0xEF then
      match rest with
      | c1 :: c2 :: r =>
        let lo1 := if b = 0xE0 then 0xA0 else 0x80
        let hi1 := if b = 0xED then 0x9F else 0xBF
        if (lo1 ≤ c1 ∧ c1 ≤ hi1) ∧ isUtf8Cont c2 then
          ((b - 0xE0) * 4096 + (c1 - 0x80) * 64 + (c2 - 0x80)) :: utf8Lossy r
        else 0xFFFD :: utf8Lossy (c1 :: c2 :: r)
      | l => 0xFFFD :: utf8Lossy l
    else if 0xF0 ≤ b ∧ b ≤ 0xF4 then
      match rest with
      | c1 :: c2 :: c3 :: r =>
        let lo1 := if b = 0xF0 then 0x90 else 0x80
        let hi1 := if b = 0xF4 then 0x8F else 0xBF
        if (lo1 ≤ c1 ∧ c1 ≤ hi1) ∧ isUtf8Cont c2 ∧ isUtf8Cont c3 then
          ((b - 0xF0) * 262144 + (c1 - 0x80) * 4096 + (c2 - 0x80) * 64 + (c3 - 0x80))
            :: utf8Lossy r
        else 0xFFFD :: utf8Lossy (c1 :: c2 :: c3 :: r)
      | l => 0xFFFD :: utf8Lossy l
    else 0xFFFD :: utf8Lossy rest

def hexDigitVal (b : Nat) : Option Nat :=
  if 0x30 ≤ b ∧ b ≤ 0x39 then some (b - 0x30)
  else if 0x41 ≤ b ∧ b ≤ 0x46 then some (b - 0x41 + 10)
  else if 0x61 ≤ b ∧ b ≤ 0x66 then some (b - 0x61 + 10)
  else none

/-- `percent_decode` (`src/vterm.rs:518`), at the byte level.  The Rust
function slices `&input[i+1..i+3]` of a `&str`; when the byte after the
two hex positions is a UTF-8 continuation byte that slice is not on a
char boundary and the program panics (`none`). -/
def percent_decode : List Nat → Option (List Nat)
  | [] => some []
  | [b] => some [b]
  | [b, h1] => some [b, h1]
  | b :: h1 :: h2 :: rest2 =>
    if b = 0x25 then
      match rest2 with
      | c :: _ =>
        -- char-boundary check for the `&input[i+1..i+3]` slice
        if isUtf8Cont c then none
        else
          match hexDigitVal h1, hexDigitVal h2 with
          | some a, some d => (percent_decode rest2).map ((a * 16 + d) :: ·)
          | _, _ => (percent_decode (h1 :: h2 :: rest2)).map (b :: ·)
      | [] =>
        match hexDigitVal h1, hexDigitVal h2 with
        | some a, some d => (percent_decode rest2).map ((a * 16 + d) :: ·)
        | _, _ => (percent_decode (h1 :: h2 :: rest2)).map (b :: ·)
    else (percent_decode (h1 :: h2 :: rest2)).map (b :: ·)

/-- The bytes of `"file://"`. -/
def fileScheme : List Nat := [0x66, 0x69, 0x6C, 0x65, 0x3A, 0x2F, 0x2F]

/-- `osc_dispatch` (`src/vterm.rs:583`): OSC 7 CWD reporting.  String
operations on the (UTF-8 validated) payload are performed on its bytes;
`"file://"` and `'/'` are ASCII so byte prefix/search coincides with the
Rust `str` operations. -/
def VirtualTerminal.osc_dispatch (vt : VirtualTerminal) (params : List (List Nat)) :
    Option VirtualTerminal :=
  match params.head? with
  | none => some vt
  | some first =>
    if first = [0x37] then
      match params[1]? with
      | none => some vt
      | some uri =>
        match utf8Decode uri with
        | none => some vt
        | some _ =>
          if fileScheme.isPrefixOf uri then
            let rest := uri.drop 7
            if rest.any (fun b => b = 0x2F) then
              let path_bytes := rest.dropWhile (fun b => ¬ b = 0x2F)
              match percent_decode path_bytes with
              | none => none
              | some decoded =>
                some { vt with reported_cwd := some (utf8Lossy decoded) }
            else some vt
          else some vt
    else some vt

/-- Rust `char::is_whitespace` (the Unicode `White_Space` code points),
used by `str::trim_end` in `row_text`. -/
def isWhitespaceCp (cp : Nat) : Bool :=
  (0x09 ≤ cp && cp ≤ 0x0D) || cp = 0x20 || cp = 0x85 || cp = 0xA0 ||
  cp = 0x1680 || (0x2000 ≤ cp && cp ≤ 0x200A) || cp = 0x2028 ||
  cp = 0x2029 || cp = 0x202F || cp = 0x205F || cp = 0x3000

/-- `str::trim_end` on a list of code points. -/
def trimEndWs (l : List Nat) : List Nat :=
  (l.reverse.dropWhile isWhitespaceCp).reverse

/-! ## `execute`, `esc_dispatch`, `csi_dispatch` (`impl Perform`) -/

namespace VirtualTerminal

/-- `execute` (`src/vterm.rs:541`): C0 control bytes. -/
def execute (vt : VirtualTerminal) (byte : Nat) : Option VirtualTerminal :=
  match byte with
  | 7 => some vt
  | 8 => some { vt with cursor := { vt.cursor with x := vt.cursor.x - 1 } }
  | 9 =>
    let tab_stop := (vt.cursor.x / 8 + 1) * 8
    some { vt with cursor := { vt.cursor with x := min tab_stop (vt.cols - 1) } }
  | 10 | 11 | 12 =>
    if vt.scroll_bottom ≤ vt.cursor.y + 1 then vt.scroll_up
    else some { vt with cursor := { vt.cursor with y := vt.cursor.y + 1 } }
  | 13 => some { vt with cursor := { vt.cursor with x := 0 } }
  | _ => some vt

/-- `esc_dispatch` (`src/vterm.rs:791`).  On RIS (`ESC c`) the source
replaces `*self` by a fresh terminal of the same dimensions, keeping the
in-flight parser (the parser is threaded outside this structure). -/
def esc_dispatch (vt : VirtualTerminal) (_ics : List Nat) (byte : Nat) :
    Option VirtualTerminal :=
  match byte with
  | 0x44 =>  -- IND
    if vt.scroll_bottom ≤ vt.cursor.y + 1 then vt.scroll_up
    else some { vt with cursor := { vt.cursor with y := vt.cursor.y + 1 } }
  | 0x4D =>  -- RI
    if vt.cursor.y ≤ vt.scroll_top then vt.scroll_down
    else some { vt with cursor := { vt.cursor with y := vt.cursor.y - 1 } }
  | 0x37 => some { vt with saved_cursor := some vt.cursor }  -- DECSC
  | 0x38 =>  -- DECRC
    match vt.saved_cursor with
    | some saved => some { vt with cursor := saved }
    | none => some vt
  | 0x63 => some (VirtualTerminal.new vt.cols vt.rows)  -- RIS
  | _ => some vt

/-- One code of the DECSET/DECRST loop (`src/vterm.rs:711`). -/
def dec_private_mode (set : Bool) (vt : VirtualTerminal) (code : Nat) :
    VirtualTerminal :=
  match code with
  | 25 => { vt with cursor := { vt.cursor with visible := set } }
  | 1049 | 1047 | 47 =>
    if set then vt.enter_alternate_screen else vt.leave_alternate_screen
  | _ => vt

/-- `csi_dispatch` (`src/vterm.rs:604`).  `p` is the flattened parameter
vector (`params.iter().map(|p| p[0])`). -/
def csi_dispatch (vt : VirtualTerminal) (p : List Nat) (ics : List Nat)
    (action : Nat) : Option VirtualTerminal :=
  match action with
  | 0x48 | 0x66 =>  -- 'H' / 'f' : CUP / HVP
    let row := max ((p[0]?).getD 1) 1 - 1
    let col := max ((p[1]?).getD 1) 1 - 1
    some { vt with cursor := { vt.cursor with
      y := min row (vt.rows - 1), x := min col (vt.cols - 1) } }
  | 0x41 =>  -- 'A' : CUU
    let n := max ((p[0]?).getD 1) 1
    some { vt with cursor := { vt.cursor with y := vt.cursor.y - n } }
  | 0x42 =>  -- 'B' : CUD
    let n := max ((p[0]?).getD 1) 1
    some { vt with cursor := { vt.cursor with y := min (vt.cursor.y + n) (vt.rows - 1) } }
  | 0x43 =>  -- 'C' : CUF
    let n := max ((p[0]?).getD 1) 1
    some { vt with cursor := { vt.cursor with x := min (vt.cursor.x + n) (vt.cols - 1) } }
  | 0x44 =>  -- 'D' : CUB
    let n := max ((p[0]?).getD 1) 1
    some { vt with cursor := { vt.cursor with x := vt.cursor.x - n } }
  | 0x45 =>  -- 'E' : CNL
    let n := max ((p[0]?).getD 1) 1
    some { vt with cursor := { vt.cursor with
      y := min (vt.cursor.y + n) (vt.rows - 1), x := 0 } }
  | 0x46 =>  -- 'F' : CPL
    let n := max ((p[0]?).getD 1) 1
    some { vt with cursor := { vt.cursor with y := vt.cursor.y - n, x := 0 } }
  | 0x47 =>  -- 'G' : CHA
    let col := max ((p[0]?).getD 1) 1 - 1
    some { vt with cursor := { vt.cursor with x := min col (vt.cols - 1) } }
  | 0x4A => vt.erase_in_display ((p[0]?).getD 0)  -- 'J' : ED
  | 0x4B => vt.erase_in_line ((p[0]?).getD 0)  -- 'K' : EL
  | 0x4C => vt.insert_lines (max ((p[0]?).getD 1) 1)  -- 'L' : IL
  | 0x4D => vt.delete_lines (max ((p[0]?).getD 1) 1)  -- 'M' : DL
  | 0x50 => vt.delete_chars (max ((p[0]?).getD 1) 1)  -- 'P' : DCH
  | 0x53 => iterM scroll_up (max ((p[0]?).getD 1) 1) vt  -- 'S' : SU
  | 0x54 => iterM scroll_down (max ((p[0]?).getD 1) 1) vt  -- 'T' : SD
  | 0x40 => vt.insert_chars (max ((p[0]?).getD 1) 1)  -- '@' : ICH
  | 0x58 => vt.erase_chars (max ((p[0]?).getD 1) 1)  -- 'X' : ECH
  | 0x64 =>  -- 'd' : VPA
    let row := max ((p[0]?).getD 1) 1 - 1
    some { vt with cursor := { vt.cursor with y := min row (vt.rows - 1) } }
  | 0x6D => some (vt.parse_sgr p)  -- 'm' : SGR
  | 0x68 =>  -- 'h' : DECSET
    if ics = [0x3F] then some (p.foldl (dec_private_mode true) vt) else some vt
  | 0x6C =>  -- 'l' : DECRST
    if ics = [0x3F] then some (p.foldl (dec_private_mode false) vt) else some vt
  | 0x73 => some { vt with saved_cursor := some vt.cursor }  -- 's'
  | 0x75 =>  -- 'u'
    match vt.saved_cursor with
    | some saved => some { vt with cursor := saved }
    | none => some vt
  | 0x72 =>  -- 'r' : DECSTBM
    if ics = [] then
      let top := max ((p[0]?).getD 1) 1 - 1
      let bottom := (p[1]?).getD (vt.rows % 65536)
      some { vt with
        scroll_top := min top vt.rows
        scroll_bottom := max (min bottom vt.rows) (min top vt.rows + 1)
        cursor := { vt.cursor with x := 0, y := 0 } }
    else some vt
  | 0x6E =>  -- 'n' : DSR
    match (p[0]?).getD 0 with
    | 5 => some { vt with response_queue := vt.response_queue ++ [[0x1B, 0x5B, 0x30, 0x6E]] }
    | 6 =>
      let resp := [0x1B, 0x5B] ++ (Nat.toDigits 10 (vt.cursor.y + 1)).map Char.toNat
        ++ [0x3B] ++ (Nat.toDigits 10 (vt.cursor.x + 1)).map Char.toNat ++ [0x52]
      some { vt with response_queue := vt.response_queue ++ [resp] }
    | _ => some vt
  | _ => some vt

/-- `resize` (`src/vterm.rs:110`).  The copy loop indexes
`self.grid[r][c]` for `r < min(rows, self.rows)`, `c < min(cols,
self.cols)`; `none` models the panic when the existing grid is smaller
than its recorded dimensions. -/
def resize (vt : VirtualTerminal) (cols rows : Nat) : Option VirtualTerminal :=
  if cols = vt.cols ∧ rows = vt.rows then some vt
  else
    let copy_rows := min rows vt.rows
    let copy_cols := min cols vt.cols
    let cellAt : Nat → Nat → Option Cell := fun r c =>
      if r < copy_rows ∧ c < copy_cols then
        match vt.grid[r]? with
        | none => none
        | some row => row[c]?
      else some Cell.blank
    match (List.range rows).mapM (fun r => (List.range cols).mapM (cellAt r)) with
    | none => none
    | some new_grid =>
      some { vt with
        grid := new_grid
        cols := cols
        rows := rows
        scroll_top := 0
        scroll_bottom := rows
        cursor := { vt.cursor with
          x := min vt.cursor.x (cols - 1), y := min vt.cursor.y (rows - 1) } }

/-- `row_text` (`src/vterm.rs:164`): concatenated cell contents of a grid
row with trailing whitespace trimmed (`str::trim_end`). -/
def row_text (vt : VirtualTerminal) (row : Nat) : Option (List Nat) :=
  if vt.rows ≤ row then some []
  else
    match vt.grid[row]? with
    | none => none
    | some r =>
      some (trimEndWs ((r.map (fun c =>
        if c.ch = [] ∨ c.ch = [0x20] then [0x20] else c.ch)).flatten))

end VirtualTerminal

/-! ## Parser actions and the modelled `vte` parser

Modelled from the spec: the `vte` crate (not part of this repository)
implements the Paul-Williams VT-500 state machine with UTF-8 decoding.
Actions carry exactly what the repository's `Perform` implementation
consumes: code points for `print`, bytes for `execute`, flattened
`u16` parameters plus intermediates for `csi_dispatch`, intermediates
plus final byte for `esc_dispatch`, raw byte parameters for
`osc_dispatch`. -/

inductive Act where
  | print (cp : Nat)
  | exec (b : Nat)
  | csi (p : List Nat) (ics : List Nat) (final : Nat)
  | esc (ics : List Nat) (final : Nat)
  | osc (ps : List (List Nat))
deriving DecidableEq, Repr

/-- Parser state (Paul-Williams states; `utf8` is the partial multi-byte
decoder state). -/
inductive PState where
  | ground
  | escape
  | escInter (ics : List Nat)
  | csiEntry
  | csiParam (ps : List Nat) (cur : Nat) (ics : List Nat)
  | csiInter (ps : List Nat) (cur : Nat) (ics : List Nat)
  | csiIgnore
  | oscStr (ps : List (List Nat)) (cur : List Nat)
  | dcs
  | sosPmApc
  | utf8 (need : Nat) (acc : Nat)
deriving DecidableEq, Repr

/-- The `vte` parameter accumulator caps the parameter count at 32 and
pushes the current accumulator at every separator and at dispatch. -/
def pushParam (ps : List Nat) (cur : Nat) : List Nat :=
  if ps.length < 32 then ps ++ [cur] else ps

/-- Ground-state transition for one byte (also the re-entry point after
an invalid UTF-8 sequence). -/
def groundStep (b : Nat) : List Act × PState :=
  if b = 0x1B then ([], .escape)
  else if b < 0x20 then ([.exec b], .ground)
  else if b ≤ 0x7E then ([.print b], .ground)
  else if b = 0x7F then ([], .ground)
  else if b < 0xC2 then ([.print 0xFFFD], .ground)
  else if b ≤ 0xDF then ([], .utf8 1 (b - 0xC0))
  else if b ≤ 0xEF then ([], .utf8 2 (b - 0xE0))
  else if b ≤ 0xF4 then ([], .utf8 3 (b - 0xF0))
  else ([.print 0xFFFD], .ground)

/-- One byte of the modelled parser.  `ESC` from any state aborts to the
escape state (dispatching a pending OSC); `CAN`/`SUB` abort to ground;
C0 bytes execute inside escape/CSI states.  Invalid UTF-8 emits U+FFFD
and reprocesses the offending byte from ground. -/
def pstep : PState → Nat → List Act × PState
  | .ground, b => groundStep b
  | .escape, b =>
    if b = 0x1B then ([], .escape)
    else if b = 0x18 ∨ b = 0x1A then ([.exec b], .ground)
    else if b < 0x20 then ([.exec b], .escape)
    else if b ≤ 0x2F then ([], .escInter [b])
    else if b = 0x50 then ([], .dcs)
    else if b = 0x58 ∨ b = 0x5E ∨ b = 0x5F then ([], .sosPmApc)
    else if b = 0x5B then ([], .csiEntry)
    else if b = 0x5D then ([], .oscStr [] [])
    else if b ≤ 0x7E then ([.esc [] b], .ground)
    else if b = 0x7F then ([], .escape)
    else ([], .ground)
  | .escInter ics, b =>
    if b = 0x1B then ([], .escape)
    else if b = 0x18 ∨ b = 0x1A then ([.exec b], .ground)
    else if b < 0x20 then ([.exec b], .escInter ics)
    else if b ≤ 0x2F then
      ([], .escInter (if ics.length < 2 then ics ++ [b] else ics))
    else if b ≤ 0x7E then ([.esc ics b], .ground)
    else if b = 0x7F then ([], .escInter ics)
    else ([], .ground)
  | .csiEntry, b =>
    if b = 0x1B then ([], .escape)
    else if b = 0x18 ∨ b = 0x1A then ([.exec b], .ground)
    else if b < 0x20 then ([.exec b], .csiEntry)
    else if b ≤ 0x2F then ([], .csiInter [] 0 [b])
    else if 0x30 ≤ b ∧ b ≤ 0x39 then ([], .csiParam [] (b - 0x30) [])
    else if b = 0x3A then ([], .csiIgnore)
    else if b = 0x3B then ([], .csiParam [0] 0 [])
    else if b ≤ 0x3F then ([], .csiParam [] 0 [b])
    else if b ≤ 0x7E then ([.csi [0] [] b], .ground)
    else if b = 0x7F then ([], .csiEntry)
    else ([], .ground)
  | .csiParam ps cur ics, b =>
    if b = 0x1B then ([], .escape)
    else if b = 0x18 ∨ b = 0x1A then ([.exec b], .ground)
    else if b < 0x20 then ([.exec b], .csiParam ps cur ics)
    else if b ≤ 0x2F then
      ([], .csiInter ps cur (if ics.length < 2 then ics ++ [b] else ics))
    else if 0x30 ≤ b ∧ b ≤ 0x39 then
      ([], .csiParam ps (min (cur * 10 + (b - 0x30)) 65535) ics)
    else if b = 0x3A then ([], .csiIgnore)
    else if b = 0x3B then ([], .csiParam (pushParam ps cur) 0 ics)
    else if b ≤ 0x3F then ([], .csiIgnore)
    else if b ≤ 0x7E then ([.csi (pushParam ps cur) ics b], .ground)
    else if b = 0x7F then ([], .csiParam ps cur ics)
    else ([], .ground)
  | .csiInter ps cur ics, b =>
    if b = 0x1B then ([], .escape)
    else if b = 0x18 ∨ b = 0x1A then ([.exec b], .ground)
    else if b < 0x20 then ([.exec b], .csiInter ps cur ics)
    else if b ≤ 0x2F then
      ([], .csiInter ps cur (if ics.length < 2 then ics ++ [b] else ics))
    else if b ≤ 0x3F then ([], .csiIgnore)
    else if b ≤ 0x7E then ([.csi (pushParam ps cur) ics b], .ground)
    else if b = 0x7F then ([], .csiInter ps cur ics)
    else ([], .ground)
  | .csiIgnore, b =>
    if b = 0x1B then ([], .escape)
    else if b = 0x18 ∨ b = 0x1A then ([.exec b], .ground)
    else if b < 0x20 then ([.exec b], .csiIgnore)
    else if 0x40 ≤ b ∧ b ≤ 0x7E then ([], .ground)
    else ([], .csiIgnore)
  | .oscStr ps cur, b =>
    if b = 0x07 then ([.osc (ps ++ [cur])], .ground)
    else if b = 0x1B then ([.osc (ps ++ [cur])], .escape)
    else if b = 0x18 ∨ b = 0x1A then ([.osc (ps ++ [cur]), .exec b], .ground)
    else if b < 0x20 then ([], .oscStr ps cur)
    else if b = 0x3B then
      if ps.length < 15 then ([], .oscStr (ps ++ [cur]) [])
      else ([], .oscStr ps (cur ++ [b]))
    else ([], .oscStr ps (cur ++ [b]))
  | .dcs, b =>
    if b = 0x1B then ([], .escape)
    else if b = 0x18 ∨ b = 0x1A then ([.exec b], .ground)
    else ([], .dcs)
  | .sosPmApc, b =>
    if b = 0x1B then ([], .escape)
    else if b = 0x18 ∨ b = 0x1A then ([.exec b], .ground)
    else ([], .sosPmApc)
  | .utf8 need acc, b =>
    if isUtf8Cont b then
      let acc' := acc * 64 + (b - 0x80)
      match need with
      | 1 =>
        ([.print (if (0xD800 ≤ acc' ∧ acc' ≤ 0xDFFF) ∨ 0x110000 ≤ acc'
          then 0xFFFD else acc')], .ground)
      | n + 2 => ([], .utf8 (n + 1) acc')
      | 0 => ([.print 0xFFFD], .ground)
    else
      let (as, p') := groundStep b
      (.print 0xFFFD :: as, p')

/-- Apply a `Perform` action to the terminal. -/
def applyAct (vt : VirtualTerminal) : Act → Option VirtualTerminal
  | .print cp => vt.put_char cp
  | .exec b => vt.execute b
  | .csi p ics f => vt.csi_dispatch p ics f
  | .esc ics f => vt.esc_dispatch ics f
  | .osc ps => vt.osc_dispatch ps

def applyActs (vt : VirtualTerminal) (acts : List Act) :
    Option VirtualTerminal :=
  acts.foldlM applyAct vt

/-- One byte of `feed`: run the parser, apply the produced actions. -/
def stepByte (st : PState × VirtualTerminal) (b : Nat) :
    Option (PState × VirtualTerminal) :=
  let (acts, p') := pstep st.1 b
  match applyActs st.2 acts with
  | none => none
  | some vt' => some (p', vt')

/-- `feed` (`src/vterm.rs:103`): bytes through the persistent parser. -/
def feed (st : PState × VirtualTerminal) (bytes : List Nat) :
    Option (PState × VirtualTerminal) :=
  bytes.foldlM stepByte st

/-- Feed from a freshly constructed terminal (ground parser state). -/
def runFeed (cols rows : Nat) (bytes : List Nat) : Option VirtualTerminal :=
  (feed (.ground, .new cols rows) bytes).map (·.2)

/-- A pane-level operation: a chunk of PTY output fed to the terminal, or
a window resize (`src/terminal.rs` drives both against the same
`VirtualTerminal`). -/
inductive PaneOp where
  | feedOp (bytes : List Nat)
  | resizeOp (cols rows : Nat)
deriving DecidableEq, Repr

/-- Apply one pane operation; a resize leaves the parser state alone. -/
def applyOp (st : PState × VirtualTerminal) : PaneOp → Option (PState × VirtualTerminal)
  | .feedOp bytes => feed st bytes
  | .resizeOp c r => (st.2.resize c r).map fun v => (st.1, v)

/-- Run a sequence of pane operations from a freshly constructed
terminal. -/
def runOps (cols rows : Nat) (ops : List PaneOp) :
    Option (PState × VirtualTerminal) :=
  ops.foldlM applyOp (.ground, .new cols rows)

/-- A concrete run of pane operations: print, newline, then resize. -/
def witnessC6 : PState × VirtualTerminal :=
  (runOps 2 2 [PaneOp.feedOp [0x41, 0x0A], PaneOp.resizeOp 3 3]).getD
    (PState.ground, VirtualTerminal.new 2 2)

/-- Following the claim's words, not the source: `row_text(row)` as "the
concatenation of the grapheme clusters stored in grid row `row` with
trailing spaces trimmed" — each cell contributes exactly its stored
cluster, so an empty continuation cell contributes nothing. -/
def rowTextSpec (vt : VirtualTerminal) (row : Nat) : Option (List Nat) :=
  if vt.rows ≤ row then some []
  else
    match vt.grid[row]? with
    | none => none
    | some r => some (trimEndWs (r.map (fun c => c.ch)).flatten)

/-- A concrete terminal with the text `AB` on its single row. -/
def witnessC8 : VirtualTerminal :=
  (runFeed 3 1 [0x41, 0x42]).getD (VirtualTerminal.new 3 1)

/-- The single grid row of `witnessC8`. -/
def witnessC8Row : List Cell := witnessC8.grid.getD 0 []

/-- An OSC 7 payload `file://a`: it has the scheme but no `/` after it. -/
def uriC10 : List Nat := [0x66, 0x69, 0x6C, 0x65, 0x3A, 0x2F, 0x2F, 0x61]

/-- A terminal that has already reported the CWD `/tmp`. -/
def witnessC10 : VirtualTerminal :=
  { VirtualTerminal.new 2 2 with reported_cwd := some [0x2F, 0x74, 0x6D, 0x70] }

/-- `witnessC10` after dispatching the degenerate OSC 7 report. -/
def witnessC10' : VirtualTerminal :=
  (witnessC10.osc_dispatch [[0x37], uriC10]).getD witnessC10

/-- The bytes of a well-formed OSC 7 report `file://h/x`. -/
def oscBytesC10 : List Nat :=
  [0x1B, 0x5D, 0x37, 0x3B, 0x66, 0x69, 0x6C, 0x65, 0x3A, 0x2F, 0x2F,
   0x68, 0x2F, 0x78, 0x07]

/-- `witnessC10` after feeding the well-formed OSC 7 report. -/
def stC10 : PState × VirtualTerminal :=
  (feed (PState.ground, witnessC10) oscBytesC10).getD (PState.ground, witnessC10)

/-- Actions produced by parsing `bytes` from parser state `p` (the
parser does not depend on the terminal state). -/
def parseTrace (p : PState) : List Nat → List Act
  | [] => []
  | b :: bs => (pstep p b).1 ++ parseTrace (pstep p b).2 bs

/-- Parser state after consuming `bytes` from state `p`. -/
def parseFinal (p : PState) : List Nat → PState
  | [] => p
  | b :: bs => parseFinal (pstep p b).2 bs

/-! ## Input encoder (`TerminalPane::handle_key`, `src/terminal.rs:262`) -/

/-- crossterm key modifiers (the three bits `modifier_param` inspects). -/
structure KeyMods where
  shift : Bool
  alt : Bool
  ctrl : Bool
deriving DecidableEq, Repr

def KeyMods.noMods : KeyMods := ⟨false, false, false⟩

/-- crossterm `KeyCode` (the variants `handle_key` matches; `unknown`
stands for every other variant, which the source ignores). -/
inductive KeyCode where
  | char (c : Nat)
  | enter | backspace | tab | esc | insert
  | up | down | right | left
  | home | keyEnd | pageUp | pageDown | delete
  | f (n : Nat)
  | backTab
  | unknown
deriving DecidableEq, Repr

/-- The `modifier_param` closure (`src/terminal.rs:265`). -/
def modifier_param (m : KeyMods) : Nat :=
  1 + (if m.shift then 1 else 0) + (if m.alt then 2 else 0) + (if m.ctrl then 4 else 0)

/-- ASCII case conversions; `char::to_uppercase` is modelled for ASCII
(the only case the encoder scenarios exercise). -/
def asciiToUpper (c : Nat) : Nat := if 0x61 ≤ c ∧ c ≤ 0x7A then c - 0x20 else c

def asciiToLower (c : Nat) : Nat := if 0x41 ≤ c ∧ c ≤ 0x5A then c + 0x20 else c

/-- UTF-8 encoding of a code point. -/
def utf8Encode (cp : Nat) : List Nat :=
  if cp < 0x80 then [cp]
  else if cp < 0x800 then [0xC0 + cp / 64, 0x80 + cp % 64]
  else if cp < 0x10000 then [0xE0 + cp / 4096, 0x80 + cp / 64 % 64, 0x80 + cp % 64]
  else [0xF0 + cp / 262144, 0x80 + cp / 4096 % 64, 0x80 + cp / 64 % 64, 0x80 + cp % 64]

/-- The byte sequence `handle_key` writes to the PTY for a key event
(`[]` when the source writes nothing).  `format!` fragments such as
`"\x1b[1;{}A"` are spelled out with `0x30 + m` since the modifier
parameter is a single digit (1..8). -/
def encode_key (code : KeyCode) (mods : KeyMods) : List Nat :=
  match code with
  | .char c =>
    if mods = KeyMods.noMods ∨ mods = ⟨true, false, false⟩ then
      let ch := if mods.shift then asciiToUpper c else c
      utf8Encode ch
    else if mods = ⟨false, false, true⟩ then
      [(asciiToLower c % 256 + 256 - (0x61 - 1)) % 256]
    else if mods = ⟨false, true, false⟩ then
      0x1B :: utf8Encode c
    else if mods = ⟨false, true, true⟩ then
      [0x1B, (asciiToLower c % 256 + 256 - (0x61 - 1)) % 256]
    else utf8Encode c
  | .enter => [0x0D]
  | .backspace => if mods.alt then [0x1B, 127] else [127]
  | .tab => if mods.shift then [0x1B, 0x5B, 0x5A] else [0x09]
  | .esc => [0x1B]
  | .insert =>
    let m := modifier_param mods
    if m = 1 then [0x1B, 0x5B, 0x32, 0x7E]
    else [0x1B, 0x5B, 0x32, 0x3B, 0x30 + m, 0x7E]
  | .up =>
    let m := modifier_param mods
    if m = 1 then [0x1B, 0x5B, 0x41] else [0x1B, 0x5B, 0x31, 0x3B, 0x30 + m, 0x41]
  | .down =>
    let m := modifier_param mods
    if m = 1 then [0x1B, 0x5B, 0x42] else [0x1B, 0x5B, 0x31, 0x3B, 0x30 + m, 0x42]
  | .right =>
    let m := modifier_param mods
    if m = 1 then [0x1B, 0x5B, 0x43] else [0x1B, 0x5B, 0x31, 0x3B, 0x30 + m, 0x43]
  | .left =>
    let m := modifier_param mods
    if m = 1 then [0x1B, 0x5B, 0x44] else [0x1B, 0x5B, 0x31, 0x3B, 0x30 + m, 0x44]
  | .home =>
    let m := modifier_param mods
    if m = 1 then [0x1B, 0x5B, 0x48] else [0x1B, 0x5B, 0x31, 0x3B, 0x30 + m, 0x48]
  | .keyEnd =>
    let m := modifier_param mods
    if m = 1 then [0x1B, 0x5B, 0x46] else [0x1B, 0x5B, 0x31, 0x3B, 0x30 + m, 0x46]
  | .pageUp =>
    let m := modifier_param mods
    if m = 1 then [0x1B, 0x5B, 0x35, 0x7E]
    else [0x1B, 0x5B, 0x35, 0x3B, 0x30 + m, 0x7E]
  | .pageDown =>
    let m := modifier_param mods
    if m = 1 then [0x1B, 0x5B, 0x36, 0x7E]
    else [0x1B, 0x5B, 0x36, 0x3B, 0x30 + m, 0x7E]
  | .delete =>
    let m := modifier_param mods
    if m = 1 then [0x1B, 0x5B, 0x33, 0x7E]
    else [0x1B, 0x5B, 0x33, 0x3B, 0x30 + m, 0x7E]
  | .f n =>
    let m := modifier_param mods
    match n with
    | 1 => if m = 1 then [0x1B, 0x4F, 0x50] else [0x1B, 0x5B, 0x31, 0x3B, 0x30 + m, 0x50]
    | 2 => if m = 1 then [0x1B, 0x4F, 0x51] else [0x1B, 0x5B, 0x31, 0x3B, 0x30 + m, 0x51]
    | 3 => if m = 1 then [0x1B, 0x4F, 0x52] else [0x1B, 0x5B, 0x31, 0x3B, 0x30 + m, 0x52]
    | 4 => if m = 1 then [0x1B, 0x4F, 0x53] else [0x1B, 0x5B, 0x31, 0x3B, 0x30 + m, 0x53]
    | 5 => if m = 1 then [0x1B, 0x5B, 0x31, 0x35, 0x7E]
           else [0x1B, 0x5B, 0x31, 0x35, 0x3B, 0x30 + m, 0x7E]
    | 6 => if m = 1 then [0x1B, 0x5B, 0x31, 0x37, 0x7E]
           else [0x1B, 0x5B, 0x31, 0x37, 0x3B, 0x30 + m, 0x7E]
    | 7 => if m = 1 then [0x1B, 0x5B, 0x31, 0x38, 0x7E]
           else [0x1B, 0x5B, 0x31, 0x38, 0x3B, 0x30 + m, 0x7E]
    | 8 => if m = 1 then [0x1B, 0x5B, 0x31, 0x39, 0x7E]
           else [0x1B, 0x5B, 0x31, 0x39, 0x3B, 0x30 + m, 0x7E]
    | 9 => if m = 1 then [0x1B, 0x5B, 0x32, 0x30, 0x7E]
           else [0x1B, 0x5B, 0x32, 0x30, 0x3B, 0x30 + m, 0x7E]
    | 10 => if m = 1 then [0x1B, 0x5B, 0x32, 0x31, 0x7E]
            else [0x1B, 0x5B, 0x32, 0x31, 0x3B, 0x30 + m, 0x7E]
    | 11 => if m = 1 then [0x1B, 0x5B, 0x32, 0x33, 0x7E]
            else [0x1B, 0x5B, 0x32, 0x33, 0x3B, 0x30 + m, 0x7E]
    | 12 => if m = 1 then [0x1B, 0x5B, 0x32, 0x34, 0x7E]
            else [0x1B, 0x5B, 0x32, 0x34, 0x3B, 0x30 + m, 0x7E]
    | _ => []
  | .backTab => [0x1B, 0x5B, 0x5A]
  | .unknown => []

/-! ## CWD tracker (`TerminalPane::tick`, `src/terminal.rs:159`)

Paths are abstracted to their component lists (`PathBuf::components`);
the scraping result and the OS `/proc` lookup are oracles (they read the
screen and the file system), passed in as arguments. -/

/-- The scraping-debounce branch of `tick` given the chosen deepest
on-screen candidate, then the `/proc` fallback.  Returns the new
`(cwd, shallow_revert_count)`. -/
def tick_scan (best_path : Option (List Nat)) (proc_cwd : Option (List Nat))
    (cwd : List Nat) (count : Nat) : List Nat × Nat :=
  match best_path with
  | some path =>
    if path = cwd then (cwd, 0)
    else if cwd.length < path.length then (path, 0)
    else if 16 ≤ count + 1 then (path, 0)
    else (cwd, count + 1)
  | none =>
    match proc_cwd with
    | some p => if p = cwd then (cwd, count) else (p, 0)
    | none => (cwd, count)

/-- `tick`: the OSC 7 signal takes priority; when it is absent or equal
to the current cwd the scan branch runs. -/
def tick (reported : Option (List Nat)) (best_path : Option (List Nat))
    (proc_cwd : Option (List Nat)) (cwd : List Nat) (count : Nat) :
    List Nat × Nat :=
  match reported with
  | some r => if r = cwd then tick_scan best_path proc_cwd cwd count else (r, 0)
  | none => tick_scan best_path proc_cwd cwd count

/-- Iterate `tick` with a fixed scraped candidate and no other signals. -/
def tickIter (path : List Nat) : Nat → List Nat × Nat → List Nat × Nat
  | 0, st => st
  | k + 1, st => tickIter path k (tick none (some path) none st.1 st.2)

/-! ## The well-formedness invariant

`VtInv c r vt` is what `VirtualTerminal::new(c, r)` establishes and every
action preserves (when it does not panic): the grid is an `r × c`
matrix, the cursor satisfies `x ≤ c` (the column can rest one past the
last cell before a deferred wrap) and `y ≤ r`, the scroll region is
non-empty with `scroll_bottom ≤ r + 1` (DECSTBM can push the bottom one
past the grid), the scrollback is bounded by 1000 and every snapshot is
similarly well formed. -/

structure VtInv (c r : Nat) (vt : VirtualTerminal) : Prop where
  hc : vt.cols = c
  hr : vt.rows = r
  cpos : 0 < c
  rpos : 0 < r
  glen : vt.grid.length = r
  gcols : ∀ row ∈ vt.grid, row.length = c
  cx : vt.cursor.x ≤ c
  cy : vt.cursor.y ≤ r
  stle : vt.scroll_top ≤ r
  stlt : vt.scroll_top < vt.scroll_bottom
  sble : vt.scroll_bottom ≤ r + 1
  sblen : vt.scrollback.length ≤ 1000
  savedsb : ∀ sb, vt.saved_scrollback = some sb → sb.length ≤ 1000
  savedg : ∀ g, vt.saved_grid = some g → g.length = r ∧ ∀ row ∈ g, row.length = c
  savedc : ∀ cu, vt.saved_cursor = some cu → cu.x ≤ c ∧ cu.y ≤ r
  savedm : ∀ cu, vt.saved_main_cursor = some cu → cu.x ≤ c ∧ cu.y ≤ r

/-- Fields every grid/cursor action leaves alone: the alternate-screen
snapshots and the OSC 7 path. -/
def SameOuter (vt vt' : VirtualTerminal) : Prop :=
  vt'.saved_grid = vt.saved_grid ∧ vt'.saved_scrollback = vt.saved_scrollback ∧
  vt'.saved_main_cursor = vt.saved_main_cursor ∧ vt'.reported_cwd = vt.reported_cwd

/-- The concrete state after `new(1,1)` consumes `"AB"`: `A` is printed,
`B` forces a wrap that scrolls the single row into scrollback. -/
def witnessC2 : VirtualTerminal :=
  { VirtualTerminal.new 1 1 with
    grid := [[⟨[0x42], Style.default⟩]]
    scrollback := [[⟨[0x41], Style.default⟩]]
    cursor := ⟨1, 0, true⟩ }

/-! ## Frame lemmas: which actions can touch the alternate-screen
snapshots and `reported_cwd` -/

def SavedEq (vt vt' : VirtualTerminal) : Prop :=
  vt'.saved_grid = vt.saved_grid ∧ vt'.saved_scrollback = vt.saved_scrollback ∧
  vt'.saved_main_cursor = vt.saved_main_cursor

/-- Whether an OSC parameter list is a well-formed OSC 7 CWD report (the
code path that assigns `reported_cwd`). -/
def osc7WellFormed (ps : List (List Nat)) : Bool :=
  match ps.head? with
  | some first =>
    (first == [0x37]) &&
    (match ps[1]? with
     | some uri =>
       (utf8Decode uri).isSome && fileScheme.isPrefixOf uri &&
         (uri.drop 7).any (fun b => b = 0x2F)
     | none => false)
  | none => false

/-- Actions that switch the alternate screen (or reset the whole VT). -/
def Act.touchesAlt : Act → Bool
  | .csi p ics f =>
    (f == 0x68 || f == 0x6C) && (ics == [0x3F]) &&
      p.any (fun code => code == 1049 || code == 1047 || code == 47)
  | .esc _ f => f == 0x63
  | _ => false

/-- Actions that can assign `reported_cwd` (a well-formed OSC 7 report or
a full reset). -/
def Act.setsCwd : Act → Bool
  | .osc ps => osc7WellFormed ps
  | .esc _ f => f == 0x63
  | _ => false

def enterAltBytes : List Nat := [0x1B, 0x5B, 0x3F, 0x31, 0x30, 0x34, 0x39, 0x68]

def leaveAltBytes : List Nat := [0x1B, 0x5B, 0x3F, 0x31, 0x30, 0x34, 0x39, 0x6C]

/-- A 1×1 terminal that has printed `A`: not on the alternate screen. -/
def witnessC5 : VirtualTerminal :=
  { VirtualTerminal.new 1 1 with
    grid := [[⟨[0x41], Style.default⟩]]
    cursor := ⟨1, 0, true⟩ }

/-- C4 (witness) helper state: a 2×1 terminal with the cursor resting
past the last column (deferred wrap pending). -/
def witnessC4 : VirtualTerminal :=
  { VirtualTerminal.new 2 1 with cursor := ⟨2, 0, true⟩ }

/-- The scrollback bound: at most 1000 rows, and any snapshot taken on
entering the alternate screen is similarly bounded. -/
structure Sbb (vt : VirtualTerminal) : Prop where
  len : vt.scrollback.length ≤ 1000
  saved : ∀ sb, vt.saved_scrollback = some sb → sb.length ≤ 1000

/-! ## Lemmas and claim theorems -/

theorem length_removeAt? {l : List α} {i : Nat} {a : α} {l' : List α}
    (h : removeAt? l i = some (a, l')) : l'.length + 1 = l.length := by
  unfold removeAt? at h
  cases hg : l[i]? with
  | none => rw [hg] at h; exact absurd h (by simp)
  | some z =>
    rw [hg] at h
    have hi : i < l.length := by
      by_contra hc
      exact absurd hg (by simp [List.getElem?_eq_none (Nat.le_of_not_lt hc)])
    have : l' = l.take i ++ l.drop (i + 1) := by
      injection h with h1; injection h1 with _ h2; exact h2.symm
    subst this
    simp [List.length_take, List.length_drop]
    omega

theorem mem_removeAt? {l : List α} {i : Nat} {a : α} {l' : List α}
    (h : removeAt? l i = some (a, l')) : a ∈ l ∧ ∀ x ∈ l', x ∈ l := by
  unfold removeAt? at h
  cases hg : l[i]? with
  | none => rw [hg] at h; exact absurd h (by simp)
  | some z =>
    rw [hg] at h
    have hz : z ∈ l := by
      rcases List.getElem?_eq_some.mp hg with ⟨hlt, he⟩
      exact he ▸ List.getElem_mem hlt
    have ha : a = z := by injection h with h1; injection h1 with h2 _; exact h2.symm
    have hl' : l' = l.take i ++ l.drop (i + 1) := by
      injection h with h1; injection h1 with _ h2; exact h2.symm
    subst ha; subst hl'
    refine ⟨hz, ?_⟩
    intro x hx
    rcases List.mem_append.mp hx with hx | hx
    · exact List.take_subset _ _ hx
    · exact List.drop_subset _ _ hx

theorem length_insertAt? {l : List α} {i : Nat} {a : α} {l' : List α}
    (h : insertAt? l i a = some l') : l'.length = l.length + 1 := by
  unfold insertAt? at h
  by_cases hi : i ≤ l.length
  · simp only [hi, if_pos] at h
    have h1 := Option.some.inj h
    subst h1
    simp [List.length_take, List.length_drop]
    omega
  · simp [hi] at h

theorem mem_insertAt? {l : List α} {i : Nat} {a : α} {l' : List α}
    (h : insertAt? l i a = some l') : ∀ x ∈ l', x = a ∨ x ∈ l := by
  unfold insertAt? at h
  by_cases hi : i ≤ l.length
  · simp only [hi, if_pos] at h
    have h1 := Option.some.inj h
    subst h1
    intro x hx
    rcases List.mem_append.mp hx with hx | hx
    · exact Or.inr (List.take_subset _ _ hx)
    · rcases List.mem_cons.mp hx with hx | hx
      · exact Or.inl hx
      · exact Or.inr (List.drop_subset _ _ hx)
  · simp [hi] at h

theorem length_setRangeAux (a b : Nat) (x : α) :
    ∀ (i : Nat) (l : List α), (setRangeAux a b x i l).length = l.length := by
  intro i l
  induction l generalizing i with
  | nil => rfl
  | cons y ys ih => simp [setRangeAux, ih]

theorem mem_setRangeAux {a b : Nat} {x : α} :
    ∀ {i : Nat} {l : List α} {z : α}, z ∈ setRangeAux a b x i l → z = x ∨ z ∈ l := by
  intro i l
  induction l generalizing i with
  | nil => intro z hz; exact absurd hz (by simp [setRangeAux])
  | cons y ys ih =>
    intro z hz
    simp only [setRangeAux, List.mem_cons] at hz
    rcases hz with hz | hz
    · by_cases hab : a ≤ i ∧ i < b
      · simp [hab] at hz; exact Or.inl hz
      · simp [hab] at hz; exact Or.inr (by simp [hz])
    · rcases ih hz with h | h
      · exact Or.inl h
      · exact Or.inr (List.mem_cons_of_mem _ h)

theorem iterM_pres {f : σ → Option σ} {P : σ → Prop}
    (hf : ∀ s s', P s → f s = some s' → P s') :
    ∀ {n : Nat} {s s' : σ}, P s → iterM f n s = some s' → P s' := by
  intro n
  induction n with
  | zero => intro s s' hP h; cases h; exact hP
  | succ n ih =>
    intro s s' hP h
    unfold iterM at h
    cases hfs : f s with
    | none => rw [hfs] at h; exact absurd h (by simp)
    | some s1 => rw [hfs] at h; exact ih (hf s s1 hP hfs) h

theorem sameOuter_refl (vt : VirtualTerminal) : SameOuter vt vt :=
  ⟨rfl, rfl, rfl, rfl⟩

theorem sameOuter_trans {a b c : VirtualTerminal}
    (h1 : SameOuter a b) (h2 : SameOuter b c) : SameOuter a c :=
  ⟨h2.1.trans h1.1, h2.2.1.trans h1.2.1, h2.2.2.1.trans h1.2.2.1,
   h2.2.2.2.trans h1.2.2.2⟩

theorem vtInv_new {c r : Nat} (hc : 0 < c) (hr : 0 < r) :
    VtInv c r (VirtualTerminal.new c r) := by
  refine ⟨rfl, rfl, hc, hr, ?_, ?_, Nat.zero_le _, Nat.zero_le _, Nat.zero_le _,
    hr, Nat.le_succ_of_le (Nat.le_refl r), Nat.zero_le _, ?_, ?_, ?_, ?_⟩
  · simp [VirtualTerminal.new, make_grid]
  · intro row hrow
    simp [VirtualTerminal.new, make_grid] at hrow
    simp [hrow]
  all_goals intro z hz; simp [VirtualTerminal.new] at hz

theorem vtInv_cursor {c r : Nat} {vt : VirtualTerminal} (hI : VtInv c r vt)
    {cu : CursorState} (hx : cu.x ≤ c) (hy : cu.y ≤ r) :
    VtInv c r { vt with cursor := cu } := by
  obtain ⟨h1, h2, h3, h4, h5, h6, _, _, h9, h10, h11, h12, h13, h14, h15, h16⟩ := hI
  exact ⟨h1, h2, h3, h4, h5, h6, hx, hy, h9, h10, h11, h12, h13, h14, h15, h16⟩

theorem vtInv_grid {c r : Nat} {vt : VirtualTerminal} (hI : VtInv c r vt)
    {g : List (List Cell)} (hlen : g.length = r)
    (hcols : ∀ row ∈ g, row.length = c) :
    VtInv c r { vt with grid := g } := by
  obtain ⟨h1, h2, h3, h4, _, _, h7, h8, h9, h10, h11, h12, h13, h14, h15, h16⟩ := hI
  exact ⟨h1, h2, h3, h4, hlen, hcols, h7, h8, h9, h10, h11, h12, h13, h14, h15, h16⟩

theorem vtInv_saved_cursor {c r : Nat} {vt : VirtualTerminal} (hI : VtInv c r vt) :
    VtInv c r { vt with saved_cursor := some vt.cursor } := by
  obtain ⟨h1, h2, h3, h4, h5, h6, h7, h8, h9, h10, h11, h12, h13, h14, _, h16⟩ := hI
  refine ⟨h1, h2, h3, h4, h5, h6, h7, h8, h9, h10, h11, h12, h13, h14, ?_, h16⟩
  intro cu hcu
  cases hcu
  exact ⟨h7, h8⟩

theorem vtInv_respq {c r : Nat} {vt : VirtualTerminal} (hI : VtInv c r vt)
    {q : List (List Nat)} : VtInv c r { vt with response_queue := q } := by
  obtain ⟨h1, h2, h3, h4, h5, h6, h7, h8, h9, h10, h11, h12, h13, h14, h15, h16⟩ := hI
  exact ⟨h1, h2, h3, h4, h5, h6, h7, h8, h9, h10, h11, h12, h13, h14, h15, h16⟩

theorem vtInv_style {c r : Nat} {vt : VirtualTerminal} (hI : VtInv c r vt)
    {st : Style} : VtInv c r { vt with current_style := st } := by
  obtain ⟨h1, h2, h3, h4, h5, h6, h7, h8, h9, h10, h11, h12, h13, h14, h15, h16⟩ := hI
  exact ⟨h1, h2, h3, h4, h5, h6, h7, h8, h9, h10, h11, h12, h13, h14, h15, h16⟩

theorem vtInv_cwd {c r : Nat} {vt : VirtualTerminal} (hI : VtInv c r vt)
    {w : Option (List Nat)} : VtInv c r { vt with reported_cwd := w } := by
  obtain ⟨h1, h2, h3, h4, h5, h6, h7, h8, h9, h10, h11, h12, h13, h14, h15, h16⟩ := hI
  exact ⟨h1, h2, h3, h4, h5, h6, h7, h8, h9, h10, h11, h12, h13, h14, h15, h16⟩

/-! ### Shape lemmas for the grid primitives -/

theorem setCell_shape {g g' : List (List Cell)} {y x : Nat} {cell : Cell}
    (h : setCell g y x cell = some g') {c : Nat}
    (hcols : ∀ row ∈ g, row.length = c) :
    g'.length = g.length ∧ ∀ row ∈ g', row.length = c := by
  unfold setCell at h
  cases hg : g[y]? with
  | none => rw [hg] at h; exact absurd h (by simp)
  | some row =>
    rw [hg] at h
    simp only at h
    by_cases hx : x < row.length
    · rw [if_pos hx] at h
      have h1 := Option.some.inj h
      subst h1
      have hrow : row ∈ g := by
        rcases List.getElem?_eq_some.mp hg with ⟨hlt, he⟩
        exact he ▸ List.getElem_mem hlt
      refine ⟨List.length_set .., ?_⟩
      intro row' hrow'
      rcases List.mem_or_eq_of_mem_set hrow' with h | h
      · exact hcols _ h
      · subst h; simp [hcols _ hrow]
    · rw [if_neg hx] at h; exact absurd h (by simp)

theorem writeCells_shape {g g' : List (List Cell)} {y a b : Nat} {cell : Cell}
    (h : writeCells g y a b cell = some g') {c : Nat}
    (hcols : ∀ row ∈ g, row.length = c) :
    g'.length = g.length ∧ ∀ row ∈ g', row.length = c := by
  unfold writeCells at h
  by_cases hab : b ≤ a
  · rw [if_pos hab] at h
    cases h
    exact ⟨rfl, hcols⟩
  · rw [if_neg hab] at h
    cases hg : g[y]? with
    | none => rw [hg] at h; exact absurd h (by simp)
    | some row =>
      rw [hg] at h
      simp only at h
      by_cases hb : b ≤ row.length
      · rw [if_pos hb] at h
        have h1 := Option.some.inj h
        subst h1
        have hrow : row ∈ g := by
          rcases List.getElem?_eq_some.mp hg with ⟨hlt, he⟩
          exact he ▸ List.getElem_mem hlt
        refine ⟨List.length_set .., ?_⟩
        intro row' hrow'
        rcases List.mem_or_eq_of_mem_set hrow' with h | h
        · exact hcols _ h
        · subst h
          rw [length_setRangeAux]
          exact hcols _ hrow
      · rw [if_neg hb] at h; exact absurd h (by simp)

theorem writeRows_shape {g g' : List (List Cell)} {a b : Nat} {row : List Cell}
    (h : writeRows g a b row = some g') {c : Nat}
    (hcols : ∀ r0 ∈ g, r0.length = c) (hrow : row.length = c) :
    g'.length = g.length ∧ ∀ r0 ∈ g', r0.length = c := by
  unfold writeRows at h
  by_cases hab : b ≤ a
  · rw [if_pos hab] at h; cases h; exact ⟨rfl, hcols⟩
  · rw [if_neg hab] at h
    by_cases hb : b ≤ g.length
    · rw [if_pos hb] at h
      have h1 := Option.some.inj h
      subst h1
      refine ⟨length_setRangeAux .., ?_⟩
      intro r0 hr0
      rcases mem_setRangeAux hr0 with h | h
      · subst h; exact hrow
      · exact hcols _ h
    · rw [if_neg hb] at h; exact absurd h (by simp)

theorem make_row_length (vt : VirtualTerminal) : vt.make_row.length = vt.cols := by
  simp [VirtualTerminal.make_row]

/-! ### Scroll operations -/

theorem scroll_up_spec {vt vt' : VirtualTerminal}
    (h : vt.scroll_up = some vt') :
    vt'.cols = vt.cols ∧ vt'.rows = vt.rows ∧ vt'.cursor = vt.cursor ∧
    vt'.scroll_top = vt.scroll_top ∧ vt'.scroll_bottom = vt.scroll_bottom ∧
    vt'.saved_cursor = vt.saved_cursor ∧ SameOuter vt vt' ∧
    vt'.current_style = vt.current_style ∧
    vt'.response_queue = vt.response_queue ∧
    vt'.grid.length = vt.grid.length ∧
    (∀ row ∈ vt'.grid, row ∈ vt.grid ∨ row.length = vt.cols) ∧
    (vt.scrollback.length ≤ 1000 → vt'.scrollback.length ≤ 1000) := by
  unfold VirtualTerminal.scroll_up at h
  by_cases h0 : vt.rows = 0 ∨ vt.scroll_bottom ≤ vt.scroll_top
  · rw [if_pos h0] at h
    cases h
    exact ⟨rfl, rfl, rfl, rfl, rfl, rfl, sameOuter_refl vt, rfl, rfl, rfl,
      fun row hrow => Or.inl hrow, fun hle => hle⟩
  · rw [if_neg h0] at h
    cases hrem : removeAt? vt.grid vt.scroll_top with
    | none => rw [hrem] at h; exact absurd h (by simp)
    | some pr =>
      obtain ⟨removed, g1⟩ := pr
      rw [hrem] at h
      simp only at h
      cases hins : insertAt? g1 (min (vt.scroll_bottom - 1) g1.length) vt.make_row with
      | none => rw [hins] at h; exact absurd h (by simp)
      | some g2 =>
        rw [hins] at h
        have h1 := Option.some.inj h
        subst h1
        have hg1len := length_removeAt? hrem
        have hg2len := length_insertAt? hins
        have hmem1 := (mem_removeAt? hrem).2
        have hmem2 := mem_insertAt? hins
        have hglen : g2.length = vt.grid.length := by omega
        refine ⟨rfl, rfl, rfl, rfl, rfl, rfl, ⟨rfl, rfl, rfl, rfl⟩, rfl, rfl,
          hglen, ?_, ?_⟩
        · intro row hrow
          rcases hmem2 row hrow with h | h
          · exact Or.inr (h ▸ make_row_length vt)
          · exact Or.inl (hmem1 row h)
        · intro hle
          show (if vt.scroll_top = 0 then
              (if MAX_SCROLLBACK < (vt.scrollback ++ [removed]).length
               then (vt.scrollback ++ [removed]).drop 1
               else vt.scrollback ++ [removed])
            else vt.scrollback).length ≤ 1000
          by_cases hst : vt.scroll_top = 0
          · rw [if_pos hst]
            by_cases hfull : MAX_SCROLLBACK < (vt.scrollback ++ [removed]).length
            · rw [if_pos hfull]
              simp only [MAX_SCROLLBACK, List.length_drop, List.length_append,
                List.length_cons, List.length_nil] at hfull ⊢
              omega
            · rw [if_neg hfull]
              simp only [MAX_SCROLLBACK, List.length_append, List.length_cons,
                List.length_nil] at hfull ⊢
              omega
          · rw [if_neg hst]
            exact hle

theorem scroll_down_spec {vt vt' : VirtualTerminal}
    (h : vt.scroll_down = some vt') :
    vt'.cols = vt.cols ∧ vt'.rows = vt.rows ∧ vt'.cursor = vt.cursor ∧
    vt'.scroll_top = vt.scroll_top ∧ vt'.scroll_bottom = vt.scroll_bottom ∧
    vt'.saved_cursor = vt.saved_cursor ∧ SameOuter vt vt' ∧
    vt'.scrollback = vt.scrollback ∧
    vt'.grid.length = vt.grid.length ∧
    (∀ row ∈ vt'.grid, row ∈ vt.grid ∨ row.length = vt.cols) := by
  unfold VirtualTerminal.scroll_down at h
  by_cases h0 : vt.rows = 0 ∨ vt.scroll_bottom ≤ vt.scroll_top
  · rw [if_pos h0] at h
    cases h
    exact ⟨rfl, rfl, rfl, rfl, rfl, rfl, sameOuter_refl vt, rfl, rfl,
      fun row hrow => Or.inl hrow⟩
  · rw [if_neg h0] at h
    simp only at h
    cases hrem : removeAt? vt.grid (min (vt.scroll_bottom - 1) (vt.grid.length - 1)) with
    | none => rw [hrem] at h; exact absurd h (by simp)
    | some pr =>
      obtain ⟨removed, g1⟩ := pr
      rw [hrem] at h
      simp only at h
      cases hins : insertAt? g1 vt.scroll_top vt.make_row with
      | none => rw [hins] at h; exact absurd h (by simp)
      | some g2 =>
        rw [hins] at h
        have h1 := Option.some.inj h
        subst h1
        have hg1len := length_removeAt? hrem
        have hg2len := length_insertAt? hins
        have hmem1 := (mem_removeAt? hrem).2
        have hmem2 := mem_insertAt? hins
        have hglen : g2.length = vt.grid.length := by omega
        refine ⟨rfl, rfl, rfl, rfl, rfl, rfl, ⟨rfl, rfl, rfl, rfl⟩, rfl,
          hglen, ?_⟩
        intro row hrow
        rcases hmem2 row hrow with h | h
        · exact Or.inr (h ▸ make_row_length vt)
        · exact Or.inl (hmem1 row h)

theorem scroll_up_inv {c r : Nat} {vt vt' : VirtualTerminal} (hI : VtInv c r vt)
    (h : vt.scroll_up = some vt') : VtInv c r vt' := by
  obtain ⟨hcols, hrows, hcur, hst, hsb, hsc, ⟨hsg, hssb, hsm, hcwd⟩, _, _, hlen,
    hmem, hsbl⟩ := scroll_up_spec h
  exact ⟨hcols.trans hI.hc, hrows.trans hI.hr, hI.cpos, hI.rpos,
    hlen.trans hI.glen,
    fun row hrow => (hmem row hrow).elim (hI.gcols row) (fun h => h.trans hI.hc),
    hcur ▸ hI.cx, hcur ▸ hI.cy, hst ▸ hI.stle, hst ▸ hsb ▸ hI.stlt,
    hsb ▸ hI.sble, hsbl hI.sblen, hssb ▸ hI.savedsb, hsg ▸ hI.savedg,
    hsc ▸ hI.savedc, hsm ▸ hI.savedm⟩

theorem scroll_down_inv {c r : Nat} {vt vt' : VirtualTerminal} (hI : VtInv c r vt)
    (h : vt.scroll_down = some vt') : VtInv c r vt' := by
  obtain ⟨hcols, hrows, hcur, hst, hsb, hsc, ⟨hsg, hssb, hsm, hcwd⟩, hsbeq, hlen,
    hmem⟩ := scroll_down_spec h
  exact ⟨hcols.trans hI.hc, hrows.trans hI.hr, hI.cpos, hI.rpos,
    hlen.trans hI.glen,
    fun row hrow => (hmem row hrow).elim (hI.gcols row) (fun h => h.trans hI.hc),
    hcur ▸ hI.cx, hcur ▸ hI.cy, hst ▸ hI.stle, hst ▸ hsb ▸ hI.stlt,
    hsb ▸ hI.sble, hsbeq ▸ hI.sblen, hssb ▸ hI.savedsb, hsg ▸ hI.savedg,
    hsc ▸ hI.savedc, hsm ▸ hI.savedm⟩

/-! ### Invariant/frame lemmas for the remaining operations -/

theorem writeCells_inv {c r : Nat} {vt : VirtualTerminal} {y a b : Nat}
    {cell : Cell} {g' : List (List Cell)} (hI : VtInv c r vt)
    (h : writeCells vt.grid y a b cell = some g') :
    VtInv c r { vt with grid := g' } := by
  obtain ⟨hlen, hcols⟩ := writeCells_shape h hI.gcols
  exact vtInv_grid hI (hlen.trans hI.glen) hcols

theorem writeRows_inv {c r : Nat} {vt : VirtualTerminal} {a b : Nat}
    {g' : List (List Cell)} (hI : VtInv c r vt)
    (h : writeRows vt.grid a b vt.make_row = some g') :
    VtInv c r { vt with grid := g' } := by
  obtain ⟨hlen, hcols⟩ :=
    writeRows_shape h hI.gcols ((make_row_length vt).trans hI.hc)
  exact vtInv_grid hI (hlen.trans hI.glen) hcols

theorem erase_in_display_inv {c r : Nat} {vt vt' : VirtualTerminal} {mode : Nat}
    (hI : VtInv c r vt) (h : vt.erase_in_display mode = some vt') :
    VtInv c r vt' := by
  unfold VirtualTerminal.erase_in_display at h
  split at h
  · -- mode 0
    cases h1 : writeCells vt.grid vt.cursor.y vt.cursor.x vt.cols Cell.blank with
    | none => rw [h1] at h; exact absurd h (by simp)
    | some g1 =>
      rw [h1] at h
      simp only at h
      cases h2 : writeRows g1 (vt.cursor.y + 1) vt.rows vt.make_row with
      | none => rw [h2] at h; exact absurd h (by simp)
      | some g2 =>
        rw [h2] at h
        cases h
        have hI1 := writeCells_inv hI h1
        obtain ⟨hlen, hcols⟩ := writeRows_shape h2 hI1.gcols
          ((make_row_length vt).trans hI.hc)
        exact vtInv_grid hI (hlen.trans hI1.glen) hcols
  · -- mode 1
    cases h1 : writeRows vt.grid 0 vt.cursor.y vt.make_row with
    | none => rw [h1] at h; exact absurd h (by simp)
    | some g1 =>
      rw [h1] at h
      simp only at h
      cases h2 : writeCells g1 vt.cursor.y 0 (min vt.cursor.x (vt.cols - 1) + 1)
          Cell.blank with
      | none => rw [h2] at h; exact absurd h (by simp)
      | some g2 =>
        rw [h2] at h
        cases h
        have hI1 := writeRows_inv hI h1
        obtain ⟨hlen, hcols⟩ := writeCells_shape h2 hI1.gcols
        exact vtInv_grid hI (hlen.trans hI1.glen) hcols
  · -- mode 2
    cases h1 : writeRows vt.grid 0 vt.rows vt.make_row with
    | none => rw [h1] at h; exact absurd h (by simp)
    | some g1 =>
      rw [h1] at h
      cases h
      exact writeRows_inv hI h1
  · -- mode 3
    cases h1 : writeRows vt.grid 0 vt.rows vt.make_row with
    | none => rw [h1] at h; exact absurd h (by simp)
    | some g1 =>
      rw [h1] at h
      cases h
      exact writeRows_inv hI h1
  · cases h; exact hI

theorem erase_in_line_inv {c r : Nat} {vt vt' : VirtualTerminal} {mode : Nat}
    (hI : VtInv c r vt) (h : vt.erase_in_line mode = some vt') :
    VtInv c r vt' := by
  unfold VirtualTerminal.erase_in_line at h
  by_cases hy : vt.rows ≤ vt.cursor.y
  · rw [if_pos hy] at h; cases h; exact hI
  · rw [if_neg hy] at h
    split at h
    · cases h1 : writeCells vt.grid vt.cursor.y vt.cursor.x vt.cols Cell.blank with
      | none => rw [h1] at h; exact absurd h (by simp)
      | some g1 => rw [h1] at h; cases h; exact writeCells_inv hI h1
    · cases h1 : writeCells vt.grid vt.cursor.y 0
          (min vt.cursor.x (vt.cols - 1) + 1) Cell.blank with
      | none => rw [h1] at h; exact absurd h (by simp)
      | some g1 => rw [h1] at h; cases h; exact writeCells_inv hI h1
    · cases h1 : vt.grid[vt.cursor.y]? with
      | none => rw [h1] at h; exact absurd h (by simp)
      | some row =>
        rw [h1] at h
        cases h
        refine vtInv_grid hI ((List.length_set ..).trans hI.glen) ?_
        intro row' hrow'
        rcases List.mem_or_eq_of_mem_set hrow' with h | h
        · exact hI.gcols _ h
        · subst h; exact (make_row_length vt).trans hI.hc
    · cases h; exact hI

theorem insert_lines_step_inv {c r bottom : Nat} {vt vt' : VirtualTerminal}
    (hI : VtInv c r vt) (h : VirtualTerminal.insert_lines_step bottom vt = some vt') :
    VtInv c r vt' := by
  unfold VirtualTerminal.insert_lines_step at h
  split at h
  · simp only at h
    cases h1 : removeAt? vt.grid (min (bottom - 1) (vt.grid.length - 1)) with
    | none => rw [h1] at h; exact absurd h (by simp)
    | some pr =>
      obtain ⟨removed, g1⟩ := pr
      rw [h1] at h
      simp only at h
      cases h2 : insertAt? g1 vt.cursor.y vt.make_row with
      | none => rw [h2] at h; exact absurd h (by simp)
      | some g2 =>
        rw [h2] at h
        cases h
        have hl1 := length_removeAt? h1
        have hl2 := length_insertAt? h2
        have hg := hI.glen
        refine vtInv_grid hI (by omega) ?_
        intro row hrow
        rcases mem_insertAt? h2 row hrow with h | h
        · subst h; exact (make_row_length vt).trans hI.hc
        · exact hI.gcols _ ((mem_removeAt? h1).2 row h)
  · cases h; exact hI

theorem delete_lines_step_inv {c r bottom : Nat} {vt vt' : VirtualTerminal}
    (hI : VtInv c r vt) (h : VirtualTerminal.delete_lines_step bottom vt = some vt') :
    VtInv c r vt' := by
  unfold VirtualTerminal.delete_lines_step at h
  split at h
  · cases h1 : removeAt? vt.grid vt.cursor.y with
    | none => rw [h1] at h; exact absurd h (by simp)
    | some pr =>
      obtain ⟨removed, g1⟩ := pr
      rw [h1] at h
      simp only at h
      cases h2 : insertAt? g1 (min (bottom - 1) g1.length) vt.make_row with
      | none => rw [h2] at h; exact absurd h (by simp)
      | some g2 =>
        rw [h2] at h
        cases h
        have hl1 := length_removeAt? h1
        have hl2 := length_insertAt? h2
        have hg := hI.glen
        refine vtInv_grid hI (by omega) ?_
        intro row hrow
        rcases mem_insertAt? h2 row hrow with h | h
        · subst h; exact (make_row_length vt).trans hI.hc
        · exact hI.gcols _ ((mem_removeAt? h1).2 row h)
  · cases h; exact hI

theorem delete_chars_row_length {x : Nat} :
    ∀ (n : Nat) (row : List Cell),
      (VirtualTerminal.delete_chars_row x n row).length = row.length := by
  intro n
  induction n with
  | zero => intro row; rfl
  | succ n ih =>
    intro row
    unfold VirtualTerminal.delete_chars_row
    by_cases hx : x < row.length
    · rw [if_pos hx, ih]
      simp [List.length_take, List.length_drop]
      omega
    · rw [if_neg hx, ih]

theorem insert_chars_row_length {x cols : Nat} :
    ∀ (n : Nat) (row : List Cell), row.length = cols →
      (VirtualTerminal.insert_chars_row x cols n row).length = cols := by
  intro n
  induction n with
  | zero => intro row hrow; exact hrow
  | succ n ih =>
    intro row hrow
    unfold VirtualTerminal.insert_chars_row
    by_cases hx : x < row.length
    · rw [if_pos hx]
      refine ih _ ?_
      simp [List.length_take, List.length_drop]
      omega
    · rw [if_neg hx]; exact ih _ hrow

theorem delete_chars_inv {c r : Nat} {vt vt' : VirtualTerminal} {count : Nat}
    (hI : VtInv c r vt) (h : vt.delete_chars count = some vt') :
    VtInv c r vt' := by
  unfold VirtualTerminal.delete_chars at h
  by_cases hy : vt.rows ≤ vt.cursor.y
  · rw [if_pos hy] at h; cases h; exact hI
  · rw [if_neg hy] at h
    cases h1 : vt.grid[vt.cursor.y]? with
    | none => rw [h1] at h; exact absurd h (by simp)
    | some row =>
      rw [h1] at h
      cases h
      have hrow : row ∈ vt.grid := by
        rcases List.getElem?_eq_some.mp h1 with ⟨hlt, he⟩
        exact he ▸ List.getElem_mem hlt
      refine vtInv_grid hI ((List.length_set ..).trans hI.glen) ?_
      intro row' hrow'
      rcases List.mem_or_eq_of_mem_set hrow' with h | h
      · exact hI.gcols _ h
      · subst h
        rw [delete_chars_row_length]
        exact hI.gcols _ hrow

theorem insert_chars_inv {c r : Nat} {vt vt' : VirtualTerminal} {count : Nat}
    (hI : VtInv c r vt) (h : vt.insert_chars count = some vt') :
    VtInv c r vt' := by
  unfold VirtualTerminal.insert_chars at h
  by_cases hy : vt.rows ≤ vt.cursor.y
  · rw [if_pos hy] at h; cases h; exact hI
  · rw [if_neg hy] at h
    cases h1 : vt.grid[vt.cursor.y]? with
    | none => rw [h1] at h; exact absurd h (by simp)
    | some row =>
      rw [h1] at h
      cases h
      have hrow : row ∈ vt.grid := by
        rcases List.getElem?_eq_some.mp h1 with ⟨hlt, he⟩
        exact he ▸ List.getElem_mem hlt
      refine vtInv_grid hI ((List.length_set ..).trans hI.glen) ?_
      intro row' hrow'
      rcases List.mem_or_eq_of_mem_set hrow' with h | h
      · exact hI.gcols _ h
      · subst h
        have hrc : row.length = vt.cols := by rw [hI.gcols _ hrow, hI.hc]
        rw [insert_chars_row_length count row hrc, hI.hc]

theorem erase_chars_inv {c r : Nat} {vt vt' : VirtualTerminal} {count : Nat}
    (hI : VtInv c r vt) (h : vt.erase_chars count = some vt') :
    VtInv c r vt' := by
  unfold VirtualTerminal.erase_chars at h
  by_cases hy : vt.rows ≤ vt.cursor.y
  · rw [if_pos hy] at h; cases h; exact hI
  · rw [if_neg hy] at h
    cases h1 : writeCells vt.grid vt.cursor.y vt.cursor.x
        (min (vt.cursor.x + count) vt.cols) Cell.blank with
    | none => rw [h1] at h; exact absurd h (by simp)
    | some g1 => rw [h1] at h; cases h; exact writeCells_inv hI h1

theorem put_char_write_inv {c r : Nat} {v1 vt' : VirtualTerminal} {cp w : Nat}
    (hI : VtInv c r v1) (hxlt : v1.cursor.x < v1.cols)
    (h : v1.put_char_write cp w = some vt') : VtInv c r vt' := by
  unfold VirtualTerminal.put_char_write at h
  by_cases hg : v1.cursor.y < v1.rows ∧ v1.cursor.x < v1.cols
  · rw [if_pos hg] at h
    cases h1 : setCell v1.grid v1.cursor.y v1.cursor.x
        { ch := [cp], style := v1.current_style } with
    | none => rw [h1] at h; exact absurd h (by simp)
    | some g =>
      rw [h1] at h
      simp only at h
      obtain ⟨hlen, hcols⟩ := setCell_shape h1 hI.gcols
      have hI2 : VtInv c r { v1 with grid := g } :=
        vtInv_grid hI (hlen.trans hI.glen) hcols
      by_cases hw : w = 2 ∧ v1.cursor.x + 1 < v1.cols
      · rw [if_pos hw] at h
        cases h3 : setCell g v1.cursor.y (v1.cursor.x + 1)
            { ch := [], style := v1.current_style } with
        | none => rw [h3] at h; exact absurd h (by simp)
        | some g2 =>
          rw [h3] at h
          cases h
          obtain ⟨hlen2, hcols2⟩ := setCell_shape h3 hI2.gcols
          have hI3 : VtInv c r { v1 with grid := g2 } :=
            vtInv_grid hI (hlen2.trans (hlen.trans hI.glen)) hcols2
          exact vtInv_cursor hI3
            (by show v1.cursor.x + 1 + 1 ≤ c
                have := hw.2; have := hI.hc; omega) hI.cy
      · rw [if_neg hw] at h
        cases h
        exact vtInv_cursor hI2
          (by show v1.cursor.x + 1 ≤ c
              have := hI.hc; have := hxlt; omega) hI.cy
  · rw [if_neg hg] at h
    simp only at h
    by_cases hw : w = 2 ∧ v1.cursor.x + 1 < v1.cols
    · rw [if_pos hw] at h
      cases h3 : setCell v1.grid v1.cursor.y (v1.cursor.x + 1)
          { ch := [], style := v1.current_style } with
      | none => rw [h3] at h; exact absurd h (by simp)
      | some g2 =>
        rw [h3] at h
        cases h
        obtain ⟨hlen2, hcols2⟩ := setCell_shape h3 hI.gcols
        have hI3 : VtInv c r { v1 with grid := g2 } :=
          vtInv_grid hI (hlen2.trans hI.glen) hcols2
        exact vtInv_cursor hI3
            (by show v1.cursor.x + 1 + 1 ≤ c
                have := hw.2; have := hI.hc; omega) hI.cy
    · rw [if_neg hw] at h
      cases h
      exact vtInv_cursor hI
        (by show v1.cursor.x + 1 ≤ c
            have := hI.hc; have := hxlt; omega) hI.cy

theorem put_char_inv {c r : Nat} {vt vt' : VirtualTerminal} {cp : Nat}
    (hI : VtInv c r vt) (h : vt.put_char cp = some vt') : VtInv c r vt' := by
  unfold VirtualTerminal.put_char at h
  by_cases hz : charWidthOpt cp = some 0 ∨ charWidthOpt cp = none
  · rw [if_pos hz] at h
    by_cases hc0 : 0 < vt.cursor.x ∧ vt.cursor.y < vt.rows
    · rw [if_pos hc0] at h
      cases h1 : vt.grid[vt.cursor.y]? with
      | none => rw [h1] at h; exact absurd h (by simp)
      | some row =>
        rw [h1] at h
        simp only at h
        have hrow : row ∈ vt.grid := by
          rcases List.getElem?_eq_some.mp h1 with ⟨hlt, he⟩
          exact he ▸ List.getElem_mem hlt
        have mkinv : ∀ (i : Nat) (cell2 : Cell), VtInv c r { vt with grid :=
            (vt.grid.set vt.cursor.y (row.set i cell2)) } := by
          intro i cell2
          refine vtInv_grid hI ((List.length_set ..).trans hI.glen) ?_
          intro row' hrow'
          rcases List.mem_or_eq_of_mem_set hrow' with h' | h'
          · exact hI.gcols _ h'
          · subst h'
            rw [List.length_set]
            exact hI.gcols _ hrow
        cases h2 : row[vt.cursor.x - 1]? with
        | none => rw [h2] at h; exact absurd h (by simp)
        | some cell =>
          rw [h2] at h
          simp only at h
          by_cases h3 : cell.ch = [] ∧ 0 < vt.cursor.x - 1
          · rw [if_pos h3] at h
            cases h4 : row[vt.cursor.x - 1 - 1]? with
            | none => rw [h4] at h; exact absurd h (by simp)
            | some cell2 =>
              rw [h4] at h
              cases h
              exact mkinv _ _
          · rw [if_neg h3] at h
            cases h
            exact mkinv _ _
    · rw [if_neg hc0] at h; cases h; exact hI
  · rw [if_neg hz] at h
    by_cases hwrap : vt.cols ≤ vt.cursor.x
    · rw [if_pos hwrap] at h
      simp only at h
      by_cases hy : vt.rows ≤ vt.cursor.y + 1
      · rw [if_pos hy] at h
        cases h1 : VirtualTerminal.scroll_up
            { vt with cursor := { vt.cursor with x := 0, y := vt.cursor.y + 1 } } with
        | none => rw [h1] at h; exact absurd h (by simp)
        | some v2 =>
          rw [h1] at h
          simp only at h
          obtain ⟨hcols, hrows, hcur, hst, hsb, hsc, ⟨hsg, hssb, hsm, hcwd⟩, _, _,
            hlen, hmem, hsbl⟩ := scroll_up_spec h1
          have hI1 : VtInv c r { v2 with cursor := { v2.cursor with y := v2.rows - 1 } } := by
            refine ⟨hcols.trans hI.hc, hrows.trans hI.hr, hI.cpos, hI.rpos,
              hlen.trans hI.glen, ?_, ?_, ?_, hst ▸ hI.stle, hst ▸ hsb ▸ hI.stlt,
              hsb ▸ hI.sble, hsbl hI.sblen, hssb ▸ hI.savedsb, hsg ▸ hI.savedg,
              hsc ▸ hI.savedc, hsm ▸ hI.savedm⟩
            · intro row hrow
              rcases hmem row hrow with h' | h'
              · exact hI.gcols _ h'
              · exact h'.trans hI.hc
            · show v2.cursor.x ≤ c
              rw [hcur]
              exact Nat.zero_le _
            · show v2.rows - 1 ≤ r
              rw [hrows, hI.hr]
              omega
          refine put_char_write_inv hI1 ?_ h
          show v2.cursor.x < v2.cols
          rw [hcur, hcols]
          exact (hI.hc ▸ hI.cpos : 0 < vt.cols)
      · rw [if_neg hy] at h
        have hI1 : VtInv c r { vt with cursor :=
            { vt.cursor with x := 0, y := vt.cursor.y + 1 } } :=
          vtInv_cursor hI (Nat.zero_le _)
            (by show vt.cursor.y + 1 ≤ r; have := hI.hr; omega)
        refine put_char_write_inv hI1 ?_ h
        show 0 < vt.cols
        exact hI.hc ▸ hI.cpos
    · rw [if_neg hwrap] at h
      simp only at h
      exact put_char_write_inv hI (by omega) h

theorem enter_alternate_screen_inv {c r : Nat} {vt : VirtualTerminal}
    (hI : VtInv c r vt) : VtInv c r vt.enter_alternate_screen := by
  unfold VirtualTerminal.enter_alternate_screen
  refine ⟨hI.hc, hI.hr, hI.cpos, hI.rpos, ?_, ?_, Nat.zero_le _, Nat.zero_le _,
    hI.stle, hI.stlt, hI.sble, Nat.zero_le _, ?_, ?_, hI.savedc, ?_⟩
  · show (make_grid vt.cols vt.rows).length = r
    simp [make_grid, hI.hr]
  · intro row hrow
    simp only [make_grid] at hrow
    have h := List.eq_of_mem_replicate hrow
    rw [h]
    simp [hI.hc]
  · exact fun sb hsb => (Option.some.inj hsb) ▸ hI.sblen
  · exact fun g hg => (Option.some.inj hg) ▸ ⟨hI.glen, hI.gcols⟩
  · exact fun cu hcu => (Option.some.inj hcu) ▸ ⟨hI.cx, hI.cy⟩

theorem restore_grid_inv {c r : Nat} {vt : VirtualTerminal}
    (hI : VtInv c r vt) : VtInv c r vt.restore_grid := by
  unfold VirtualTerminal.restore_grid
  cases hg : vt.saved_grid with
  | none => exact hI
  | some g =>
    exact ⟨hI.hc, hI.hr, hI.cpos, hI.rpos, (hI.savedg g hg).1,
      (hI.savedg g hg).2, hI.cx, hI.cy, hI.stle, hI.stlt, hI.sble, hI.sblen,
      hI.savedsb, (fun z hz => nomatch hz), hI.savedc, hI.savedm⟩

theorem restore_scrollback_inv {c r : Nat} {vt : VirtualTerminal}
    (hI : VtInv c r vt) : VtInv c r vt.restore_scrollback := by
  unfold VirtualTerminal.restore_scrollback
  cases hsb : vt.saved_scrollback with
  | none => exact hI
  | some sb =>
    exact ⟨hI.hc, hI.hr, hI.cpos, hI.rpos, hI.glen, hI.gcols, hI.cx, hI.cy,
      hI.stle, hI.stlt, hI.sble, hI.savedsb sb hsb,
      (fun z hz => nomatch hz), hI.savedg, hI.savedc, hI.savedm⟩

theorem restore_main_cursor_inv {c r : Nat} {vt : VirtualTerminal}
    (hI : VtInv c r vt) : VtInv c r vt.restore_main_cursor := by
  unfold VirtualTerminal.restore_main_cursor
  cases hmc : vt.saved_main_cursor with
  | none => exact hI
  | some cu =>
    exact ⟨hI.hc, hI.hr, hI.cpos, hI.rpos, hI.glen, hI.gcols,
      (hI.savedm cu hmc).1, (hI.savedm cu hmc).2,
      hI.stle, hI.stlt, hI.sble, hI.sblen,
      hI.savedsb, hI.savedg, hI.savedc, (fun z hz => nomatch hz)⟩

theorem leave_alternate_screen_inv {c r : Nat} {vt : VirtualTerminal}
    (hI : VtInv c r vt) : VtInv c r vt.leave_alternate_screen :=
  restore_main_cursor_inv (restore_scrollback_inv (restore_grid_inv hI))

theorem vtInv_set_cursor {c r : Nat} {vt : VirtualTerminal} (hI : VtInv c r vt)
    {x y : Nat} {v : Bool} (hx : x ≤ c) (hy : y ≤ r) :
    VtInv c r { vt with cursor := ⟨x, y, v⟩ } :=
  vtInv_cursor hI hx hy

theorem foldlM_pres {σ β : Type _} {f : σ → β → Option σ} {P : σ → Prop}
    (hf : ∀ s b s', P s → f s b = some s' → P s') :
    ∀ {l : List β} {s s' : σ}, P s → l.foldlM f s = some s' → P s' := by
  intro l
  induction l with
  | nil => intro s s' hP h; cases h; exact hP
  | cons b bs ih =>
    intro s s' hP h
    rw [List.foldlM_cons] at h
    cases hfb : f s b with
    | none => rw [hfb] at h; exact absurd h (by simp)
    | some s1 =>
      rw [hfb] at h
      exact ih (hf s b s1 hP hfb) h

theorem execute_inv {c r : Nat} {vt vt' : VirtualTerminal} {byte : Nat}
    (hI : VtInv c r vt) (h : vt.execute byte = some vt') : VtInv c r vt' := by
  unfold VirtualTerminal.execute at h
  have hc := hI.hc
  have hr := hI.hr
  have hx := hI.cx
  have hy := hI.cy
  have hcp := hI.cpos
  have hrp := hI.rpos
  split at h
  · cases h; exact hI
  · cases h; exact vtInv_set_cursor hI (by omega) hy
  · cases h
    exact vtInv_set_cursor hI (by omega) hy
  · -- LF
    by_cases hcond : vt.scroll_bottom ≤ vt.cursor.y + 1
    · rw [if_pos hcond] at h; exact scroll_up_inv hI h
    · rw [if_neg hcond] at h
      cases h
      have hsb := hI.sble
      exact vtInv_set_cursor hI hx (by omega)
  · -- VT
    by_cases hcond : vt.scroll_bottom ≤ vt.cursor.y + 1
    · rw [if_pos hcond] at h; exact scroll_up_inv hI h
    · rw [if_neg hcond] at h
      cases h
      have hsb := hI.sble
      exact vtInv_set_cursor hI hx (by omega)
  · -- FF
    by_cases hcond : vt.scroll_bottom ≤ vt.cursor.y + 1
    · rw [if_pos hcond] at h; exact scroll_up_inv hI h
    · rw [if_neg hcond] at h
      cases h
      have hsb := hI.sble
      exact vtInv_set_cursor hI hx (by omega)
  · cases h; exact vtInv_set_cursor hI (by omega) hy
  · cases h; exact hI

theorem esc_dispatch_inv {c r : Nat} {vt vt' : VirtualTerminal}
    {ics : List Nat} {byte : Nat}
    (hI : VtInv c r vt) (h : vt.esc_dispatch ics byte = some vt') :
    VtInv c r vt' := by
  unfold VirtualTerminal.esc_dispatch at h
  have hx := hI.cx
  have hy := hI.cy
  split at h
  · -- IND
    by_cases hcond : vt.scroll_bottom ≤ vt.cursor.y + 1
    · rw [if_pos hcond] at h; exact scroll_up_inv hI h
    · rw [if_neg hcond] at h
      cases h
      have hsb := hI.sble
      exact vtInv_set_cursor hI hx (by omega)
  · -- RI
    by_cases hcond : vt.cursor.y ≤ vt.scroll_top
    · rw [if_pos hcond] at h; exact scroll_down_inv hI h
    · rw [if_neg hcond] at h
      cases h
      exact vtInv_set_cursor hI hx (by omega)
  · cases h; exact vtInv_saved_cursor hI
  · -- DECRC
    cases hs : vt.saved_cursor with
    | some saved =>
      rw [hs] at h
      cases h
      exact ⟨hI.hc, hI.hr, hI.cpos, hI.rpos, hI.glen, hI.gcols,
        (hI.savedc saved hs).1, (hI.savedc saved hs).2, hI.stle, hI.stlt,
        hI.sble, hI.sblen, hI.savedsb, hI.savedg,
        (fun cu hcu => (Option.some.inj hcu) ▸ hI.savedc saved hs), hI.savedm⟩
    | none => rw [hs] at h; cases h; exact hI
  · -- RIS
    cases h
    rw [hI.hc, hI.hr]
    exact vtInv_new hI.cpos hI.rpos
  · cases h; exact hI

theorem dec_private_mode_inv {c r : Nat} {vt : VirtualTerminal}
    {set : Bool} {code : Nat} (hI : VtInv c r vt) :
    VtInv c r (VirtualTerminal.dec_private_mode set vt code) := by
  unfold VirtualTerminal.dec_private_mode
  split
  · exact vtInv_cursor hI hI.cx hI.cy
  · by_cases hs : set = true
    · rw [if_pos hs]; exact enter_alternate_screen_inv hI
    · rw [if_neg hs]; exact leave_alternate_screen_inv hI
  · by_cases hs : set = true
    · rw [if_pos hs]; exact enter_alternate_screen_inv hI
    · rw [if_neg hs]; exact leave_alternate_screen_inv hI
  · by_cases hs : set = true
    · rw [if_pos hs]; exact enter_alternate_screen_inv hI
    · rw [if_neg hs]; exact leave_alternate_screen_inv hI
  · exact hI

theorem foldl_dec_inv {c r : Nat} {set : Bool} :
    ∀ {p : List Nat} {vt : VirtualTerminal}, VtInv c r vt →
      VtInv c r (p.foldl (VirtualTerminal.dec_private_mode set) vt) := by
  intro p
  induction p with
  | nil => intro vt hI; exact hI
  | cons code rest ih =>
    intro vt hI
    rw [List.foldl_cons]
    exact ih (dec_private_mode_inv hI)

theorem osc_dispatch_inv {c r : Nat} {vt vt' : VirtualTerminal}
    {ps : List (List Nat)}
    (hI : VtInv c r vt) (h : vt.osc_dispatch ps = some vt') : VtInv c r vt' := by
  unfold VirtualTerminal.osc_dispatch at h
  cases hh : ps.head? with
  | none => rw [hh] at h; cases h; exact hI
  | some first =>
    rw [hh] at h
    try simp only at h
    by_cases h7 : first = [0x37]
    · rw [if_pos h7] at h
      cases h1 : ps[1]? with
      | none => rw [h1] at h; cases h; exact hI
      | some uri =>
        rw [h1] at h
        try simp only at h
        cases h2 : utf8Decode uri with
        | none => rw [h2] at h; cases h; exact hI
        | some dec =>
          rw [h2] at h
          try simp only at h
          by_cases h3 : fileScheme.isPrefixOf uri = true
          · rw [if_pos h3] at h
            try simp only at h
            by_cases h4 : (uri.drop 7).any (fun b => b = 0x2F) = true
            · rw [if_pos h4] at h
              cases h5 : percent_decode
                  ((uri.drop 7).dropWhile (fun b => ¬ b = 0x2F)) with
              | none => rw [h5] at h; exact absurd h (by simp)
              | some decoded => rw [h5] at h; cases h; exact vtInv_cwd hI
            · rw [if_neg h4] at h; cases h; exact hI
          · rw [if_neg h3] at h; cases h; exact hI
    · rw [if_neg h7] at h; cases h; exact hI

theorem csi_dispatch_inv {c r : Nat} {vt vt' : VirtualTerminal}
    {p ics : List Nat} {action : Nat}
    (hI : VtInv c r vt) (h : vt.csi_dispatch p ics action = some vt') :
    VtInv c r vt' := by
  unfold VirtualTerminal.csi_dispatch at h
  have hc := hI.hc
  have hr := hI.hr
  have hx := hI.cx
  have hy := hI.cy
  have hcp := hI.cpos
  have hrp := hI.rpos
  split at h
  · cases h; exact vtInv_set_cursor hI (by omega) (by omega)  -- 'H'
  · cases h; exact vtInv_set_cursor hI (by omega) (by omega)  -- 'f'
  · cases h; exact vtInv_set_cursor hI hx (by omega)  -- 'A'
  · cases h; exact vtInv_set_cursor hI hx (by omega)  -- 'B'
  · cases h; exact vtInv_set_cursor hI (by omega) hy  -- 'C'
  · cases h; exact vtInv_set_cursor hI (by omega) hy  -- 'D'
  · cases h; exact vtInv_set_cursor hI (by omega) (by omega)  -- 'E'
  · cases h; exact vtInv_set_cursor hI (by omega) (by omega)  -- 'F'
  · cases h; exact vtInv_set_cursor hI (by omega) hy  -- 'G'
  · exact erase_in_display_inv hI h  -- 'J'
  · exact erase_in_line_inv hI h  -- 'K'
  · exact iterM_pres (fun s s' hP hs => insert_lines_step_inv hP hs) hI h  -- 'L'
  · exact iterM_pres (fun s s' hP hs => delete_lines_step_inv hP hs) hI h  -- 'M'
  · exact delete_chars_inv hI h  -- 'P'
  · exact iterM_pres (fun s s' hP hs => scroll_up_inv hP hs) hI h  -- 'S'
  · exact iterM_pres (fun s s' hP hs => scroll_down_inv hP hs) hI h  -- 'T'
  · exact insert_chars_inv hI h  -- '@'
  · exact erase_chars_inv hI h  -- 'X'
  · cases h; exact vtInv_set_cursor hI hx (by omega)  -- 'd'
  · cases h; exact vtInv_style hI  -- 'm'
  · -- 'h'
    by_cases hq : ics = [0x3F]
    · rw [if_pos hq] at h; cases h; exact foldl_dec_inv hI
    · rw [if_neg hq] at h; cases h; exact hI
  · -- 'l'
    by_cases hq : ics = [0x3F]
    · rw [if_pos hq] at h; cases h; exact foldl_dec_inv hI
    · rw [if_neg hq] at h; cases h; exact hI
  · cases h; exact vtInv_saved_cursor hI  -- 's'
  · -- 'u'
    cases hs : vt.saved_cursor with
    | some saved =>
      rw [hs] at h
      cases h
      exact ⟨hI.hc, hI.hr, hI.cpos, hI.rpos, hI.glen, hI.gcols,
        (hI.savedc saved hs).1, (hI.savedc saved hs).2, hI.stle, hI.stlt,
        hI.sble, hI.sblen, hI.savedsb, hI.savedg,
        (fun cu hcu => (Option.some.inj hcu) ▸ hI.savedc saved hs), hI.savedm⟩
    | none => rw [hs] at h; cases h; exact hI
  · -- 'r'
    by_cases hq : ics = ([] : List Nat)
    · rw [if_pos hq] at h
      simp only at h
      cases h
      refine ⟨hI.hc, hI.hr, hI.cpos, hI.rpos, hI.glen, hI.gcols, ?_, ?_, ?_, ?_, ?_,
        hI.sblen, hI.savedsb, hI.savedg, hI.savedc, hI.savedm⟩
      · show (0 : Nat) ≤ c
        exact Nat.zero_le _
      · show (0 : Nat) ≤ r
        exact Nat.zero_le _
      · show min (max ((p[0]?).getD 1) 1 - 1) vt.rows ≤ r
        omega
      · show min (max ((p[0]?).getD 1) 1 - 1) vt.rows <
          max (min ((p[1]?).getD (vt.rows % 65536)) vt.rows)
            (min (max ((p[0]?).getD 1) 1 - 1) vt.rows + 1)
        omega
      · show max (min ((p[1]?).getD (vt.rows % 65536)) vt.rows)
            (min (max ((p[0]?).getD 1) 1 - 1) vt.rows + 1) ≤ r + 1
        omega
    · rw [if_neg hq] at h; cases h; exact hI
  · -- 'n'
    split at h
    · cases h; exact vtInv_respq hI
    · cases h; exact vtInv_respq hI
    · cases h; exact hI
  · cases h; exact hI

theorem applyAct_inv {c r : Nat} {vt vt' : VirtualTerminal} {a : Act}
    (hI : VtInv c r vt) (h : applyAct vt a = some vt') : VtInv c r vt' := by
  cases a with
  | print cp => exact put_char_inv hI h
  | exec b => exact execute_inv hI h
  | csi p ics f => exact csi_dispatch_inv hI h
  | esc ics f => exact @esc_dispatch_inv c r vt vt' ics f hI h
  | osc ps => exact osc_dispatch_inv hI h

theorem applyActs_inv {c r : Nat} {vt vt' : VirtualTerminal} {acts : List Act}
    (hI : VtInv c r vt) (h : applyActs vt acts = some vt') : VtInv c r vt' :=
  foldlM_pres (fun _ _ _ hP hs => applyAct_inv hP hs) hI h

theorem stepByte_inv {c r : Nat} {st st' : PState × VirtualTerminal} {b : Nat}
    (hI : VtInv c r st.2) (h : stepByte st b = some st') : VtInv c r st'.2 := by
  unfold stepByte at h
  cases hp : pstep st.1 b with
  | mk acts p' =>
    rw [hp] at h
    simp only at h
    cases ha : applyActs st.2 acts with
    | none => rw [ha] at h; exact absurd h (by simp)
    | some vt2 =>
      rw [ha] at h
      cases h
      exact applyActs_inv hI ha

theorem feed_inv {c r : Nat} {st st' : PState × VirtualTerminal} {bytes : List Nat}
    (hI : VtInv c r st.2) (h : feed st bytes = some st') : VtInv c r st'.2 :=
  foldlM_pres (fun _ _ _ hP hs => stepByte_inv hP hs) hI h

/-! ## Claim C1 and C2 -/

/-- C1: the claim says `feed` never fails on any byte sequence and every
grid access stays in bounds.  The code violates this: `CSI 9 r` on a
1×1 terminal sets `scroll_top = 1 = rows`, `scroll_bottom = 2 > rows`
(DECSTBM clamps the bottom to `rows` but then forces it above `top`),
and the following `CSI S` executes `grid.remove(1)` on a 1-row grid — an
out-of-bounds `Vec::remove` panic, modelled by `none`. -/
theorem c1_feed_panics_on_decstbm :
    runFeed 1 1 [0x1B, 0x5B, 0x39, 0x72, 0x1B, 0x5B, 0x53] = none := by decide

/-- C2 (counterexample): the claim asserts `cursor.x < c` and
`scroll_bottom ≤ r` after any `feed` from `new(c, r)`.  Both fail on a
1×1 terminal: printing `A` leaves `cursor.x = 1 = cols` (deferred wrap),
and `CSI 9 r` sets `scroll_bottom = 2 > rows`. -/
theorem c2_counterexample :
    ((runFeed 1 1 [0x41]).map (fun v => decide (v.cursor.x < 1))) = some false ∧
    ((runFeed 1 1 [0x1B, 0x5B, 0x39, 0x72]).map
      (fun v => decide (v.scroll_bottom ≤ 1))) = some false := by
  exact ⟨by decide, by decide⟩

/-- C2 (amended): for positive dimensions and any byte sequence, when
`feed` returns without a grid overrun the grid is exactly `r` rows of
`c` cells, `cursor.x ≤ c`, `cursor.y ≤ r`, and the scroll region
satisfies `scroll_top ≤ r` and `scroll_top < scroll_bottom ≤ r + 1`. -/
theorem c2_grid_invariant (c r : Nat) (hc : 0 < c) (hr : 0 < r)
    (bytes : List Nat) (v : VirtualTerminal) (h : runFeed c r bytes = some v) :
    v.rows = r ∧ v.cols = c ∧ v.grid.length = r ∧
    (∀ row ∈ v.grid, row.length = c) ∧
    v.cursor.x ≤ c ∧ v.cursor.y ≤ r ∧
    v.scroll_top ≤ r ∧ v.scroll_top < v.scroll_bottom ∧
    v.scroll_bottom ≤ r + 1 := by
  unfold runFeed at h
  cases hf : feed (.ground, .new c r) bytes with
  | none => rw [hf] at h; exact absurd h (by simp)
  | some st =>
    rw [hf] at h
    cases h
    have hI : VtInv c r st.2 := feed_inv (vtInv_new hc hr) hf
    exact ⟨hI.hr, hI.hc, hI.glen, hI.gcols, hI.cx, hI.cy, hI.stle, hI.stlt,
      hI.sble⟩

/-- C2 (witness): the amended invariant instantiated at a concrete run. -/
theorem c2_grid_invariant_witness :
    (0 < 1 ∧ runFeed 1 1 [0x41, 0x42] = some witnessC2) ∧
    ((witnessC2.rows = 1 ∧ witnessC2.cols = 1 ∧ witnessC2.grid.length = 1 ∧
      (∀ row ∈ witnessC2.grid, row.length = 1) ∧
      witnessC2.cursor.x ≤ 1 ∧ witnessC2.cursor.y ≤ 1 ∧
      witnessC2.scroll_top ≤ 1 ∧ witnessC2.scroll_top < witnessC2.scroll_bottom ∧
      witnessC2.scroll_bottom ≤ 1 + 1)) :=
  ⟨⟨Nat.one_pos, by decide⟩,
   c2_grid_invariant 1 1 Nat.one_pos Nat.one_pos [0x41, 0x42] witnessC2 (by decide)⟩

/-! ## Claim C3: split invariance of `feed` -/

/-- C3: feeding is split-invariant: for any starting state (terminal and
parser) and any split `b1 ++ b2`, feeding the halves separately gives
exactly the state of feeding the concatenation; the parser state is part
of the threaded state and persists across the boundary. -/
theorem c3_feed_split_invariance (st : PState × VirtualTerminal)
    (b1 b2 : List Nat) :
    feed st (b1 ++ b2) = (feed st b1).bind (fun st1 => feed st1 b2) := by
  unfold feed
  induction b1 generalizing st with
  | nil => simp
  | cons b bs ih =>
    rw [List.cons_append, List.foldlM_cons, List.foldlM_cons]
    cases hsb : stepByte st b with
    | none => simp
    | some st1 =>
      simp only [Option.bind_eq_bind, Option.some_bind]
      exact ih st1

theorem savedEq_refl (vt : VirtualTerminal) : SavedEq vt vt := ⟨rfl, rfl, rfl⟩

theorem savedEq_trans {a b c : VirtualTerminal}
    (h1 : SavedEq a b) (h2 : SavedEq b c) : SavedEq a c :=
  ⟨h2.1.trans h1.1, h2.2.1.trans h1.2.1, h2.2.2.trans h1.2.2⟩

theorem sameOuter_savedEq {vt vt' : VirtualTerminal} (h : SameOuter vt vt') :
    SavedEq vt vt' := ⟨h.1, h.2.1, h.2.2.1⟩

theorem put_char_write_frame {v1 vt' : VirtualTerminal} {cp w : Nat}
    (h : v1.put_char_write cp w = some vt') : SameOuter v1 vt' := by
  unfold VirtualTerminal.put_char_write at h
  by_cases hg : v1.cursor.y < v1.rows ∧ v1.cursor.x < v1.cols
  · rw [if_pos hg] at h
    cases h1 : setCell v1.grid v1.cursor.y v1.cursor.x
        { ch := [cp], style := v1.current_style } with
    | none => rw [h1] at h; exact absurd h (by simp)
    | some g =>
      rw [h1] at h
      simp only at h
      by_cases hw : w = 2 ∧ v1.cursor.x + 1 < v1.cols
      · rw [if_pos hw] at h
        cases h3 : setCell g v1.cursor.y (v1.cursor.x + 1)
            { ch := [], style := v1.current_style } with
        | none => rw [h3] at h; exact absurd h (by simp)
        | some g2 => rw [h3] at h; cases h; exact ⟨rfl, rfl, rfl, rfl⟩
      · rw [if_neg hw] at h; cases h; exact ⟨rfl, rfl, rfl, rfl⟩
  · rw [if_neg hg] at h
    simp only at h
    by_cases hw : w = 2 ∧ v1.cursor.x + 1 < v1.cols
    · rw [if_pos hw] at h
      cases h3 : setCell v1.grid v1.cursor.y (v1.cursor.x + 1)
          { ch := [], style := v1.current_style } with
      | none => rw [h3] at h; exact absurd h (by simp)
      | some g2 => rw [h3] at h; cases h; exact ⟨rfl, rfl, rfl, rfl⟩
    · rw [if_neg hw] at h; cases h; exact ⟨rfl, rfl, rfl, rfl⟩

theorem put_char_frame {vt vt' : VirtualTerminal} {cp : Nat}
    (h : vt.put_char cp = some vt') : SameOuter vt vt' := by
  unfold VirtualTerminal.put_char at h
  by_cases hz : charWidthOpt cp = some 0 ∨ charWidthOpt cp = none
  · rw [if_pos hz] at h
    by_cases hc0 : 0 < vt.cursor.x ∧ vt.cursor.y < vt.rows
    · rw [if_pos hc0] at h
      cases h1 : vt.grid[vt.cursor.y]? with
      | none => rw [h1] at h; exact absurd h (by simp)
      | some row =>
        rw [h1] at h
        simp only at h
        cases h2 : row[vt.cursor.x - 1]? with
        | none => rw [h2] at h; exact absurd h (by simp)
        | some cell =>
          rw [h2] at h
          simp only at h
          by_cases h3 : cell.ch = [] ∧ 0 < vt.cursor.x - 1
          · rw [if_pos h3] at h
            cases h4 : row[vt.cursor.x - 1 - 1]? with
            | none => rw [h4] at h; exact absurd h (by simp)
            | some cell2 => rw [h4] at h; cases h; exact ⟨rfl, rfl, rfl, rfl⟩
          · rw [if_neg h3] at h; cases h; exact ⟨rfl, rfl, rfl, rfl⟩
    · rw [if_neg hc0] at h; cases h; exact sameOuter_refl vt
  · rw [if_neg hz] at h
    by_cases hwrap : vt.cols ≤ vt.cursor.x
    · rw [if_pos hwrap] at h
      simp only at h
      by_cases hy : vt.rows ≤ vt.cursor.y + 1
      · rw [if_pos hy] at h
        cases h1 : VirtualTerminal.scroll_up
            { vt with cursor := { vt.cursor with x := 0, y := vt.cursor.y + 1 } } with
        | none => rw [h1] at h; exact absurd h (by simp)
        | some v2 =>
          rw [h1] at h
          simp only at h
          obtain ⟨_, _, _, _, _, _, hso, _, _, _, _, _⟩ := scroll_up_spec h1
          have hso2 := put_char_write_frame h
          exact sameOuter_trans hso
            ⟨hso2.1, hso2.2.1, hso2.2.2.1, hso2.2.2.2⟩
      · rw [if_neg hy] at h
        have hso2 := put_char_write_frame h
        exact ⟨hso2.1, hso2.2.1, hso2.2.2.1, hso2.2.2.2⟩
    · rw [if_neg hwrap] at h
      simp only at h
      exact put_char_write_frame h

theorem erase_in_display_frame {vt vt' : VirtualTerminal} {mode : Nat}
    (h : vt.erase_in_display mode = some vt') : SameOuter vt vt' := by
  unfold VirtualTerminal.erase_in_display at h
  split at h
  · cases h1 : writeCells vt.grid vt.cursor.y vt.cursor.x vt.cols Cell.blank with
    | none => rw [h1] at h; exact absurd h (by simp)
    | some g1 =>
      rw [h1] at h
      simp only at h
      cases h2 : writeRows g1 (vt.cursor.y + 1) vt.rows vt.make_row with
      | none => rw [h2] at h; exact absurd h (by simp)
      | some g2 => rw [h2] at h; cases h; exact ⟨rfl, rfl, rfl, rfl⟩
  · cases h1 : writeRows vt.grid 0 vt.cursor.y vt.make_row with
    | none => rw [h1] at h; exact absurd h (by simp)
    | some g1 =>
      rw [h1] at h
      simp only at h
      cases h2 : writeCells g1 vt.cursor.y 0 (min vt.cursor.x (vt.cols - 1) + 1)
          Cell.blank with
      | none => rw [h2] at h; exact absurd h (by simp)
      | some g2 => rw [h2] at h; cases h; exact ⟨rfl, rfl, rfl, rfl⟩
  · cases h1 : writeRows vt.grid 0 vt.rows vt.make_row with
    | none => rw [h1] at h; exact absurd h (by simp)
    | some g1 => rw [h1] at h; cases h; exact ⟨rfl, rfl, rfl, rfl⟩
  · cases h1 : writeRows vt.grid 0 vt.rows vt.make_row with
    | none => rw [h1] at h; exact absurd h (by simp)
    | some g1 => rw [h1] at h; cases h; exact ⟨rfl, rfl, rfl, rfl⟩
  · cases h; exact sameOuter_refl vt

theorem erase_in_line_frame {vt vt' : VirtualTerminal} {mode : Nat}
    (h : vt.erase_in_line mode = some vt') : SameOuter vt vt' := by
  unfold VirtualTerminal.erase_in_line at h
  by_cases hy : vt.rows ≤ vt.cursor.y
  · rw [if_pos hy] at h; cases h; exact sameOuter_refl vt
  · rw [if_neg hy] at h
    split at h
    · cases h1 : writeCells vt.grid vt.cursor.y vt.cursor.x vt.cols Cell.blank with
      | none => rw [h1] at h; exact absurd h (by simp)
      | some g1 => rw [h1] at h; cases h; exact ⟨rfl, rfl, rfl, rfl⟩
    · cases h1 : writeCells vt.grid vt.cursor.y 0
          (min vt.cursor.x (vt.cols - 1) + 1) Cell.blank with
      | none => rw [h1] at h; exact absurd h (by simp)
      | some g1 => rw [h1] at h; cases h; exact ⟨rfl, rfl, rfl, rfl⟩
    · cases h1 : vt.grid[vt.cursor.y]? with
      | none => rw [h1] at h; exact absurd h (by simp)
      | some row => rw [h1] at h; cases h; exact ⟨rfl, rfl, rfl, rfl⟩
    · cases h; exact sameOuter_refl vt

theorem insert_lines_step_frame {bottom : Nat} {vt vt' : VirtualTerminal}
    (h : VirtualTerminal.insert_lines_step bottom vt = some vt') :
    SameOuter vt vt' := by
  unfold VirtualTerminal.insert_lines_step at h
  split at h
  · simp only at h
    cases h1 : removeAt? vt.grid (min (bottom - 1) (vt.grid.length - 1)) with
    | none => rw [h1] at h; exact absurd h (by simp)
    | some pr =>
      obtain ⟨removed, g1⟩ := pr
      rw [h1] at h
      simp only at h
      cases h2 : insertAt? g1 vt.cursor.y vt.make_row with
      | none => rw [h2] at h; exact absurd h (by simp)
      | some g2 => rw [h2] at h; cases h; exact ⟨rfl, rfl, rfl, rfl⟩
  · cases h; exact sameOuter_refl vt

theorem delete_lines_step_frame {bottom : Nat} {vt vt' : VirtualTerminal}
    (h : VirtualTerminal.delete_lines_step bottom vt = some vt') :
    SameOuter vt vt' := by
  unfold VirtualTerminal.delete_lines_step at h
  split at h
  · cases h1 : removeAt? vt.grid vt.cursor.y with
    | none => rw [h1] at h; exact absurd h (by simp)
    | some pr =>
      obtain ⟨removed, g1⟩ := pr
      rw [h1] at h
      simp only at h
      cases h2 : insertAt? g1 (min (bottom - 1) g1.length) vt.make_row with
      | none => rw [h2] at h; exact absurd h (by simp)
      | some g2 => rw [h2] at h; cases h; exact ⟨rfl, rfl, rfl, rfl⟩
  · cases h; exact sameOuter_refl vt

theorem delete_chars_frame {vt vt' : VirtualTerminal} {count : Nat}
    (h : vt.delete_chars count = some vt') : SameOuter vt vt' := by
  unfold VirtualTerminal.delete_chars at h
  by_cases hy : vt.rows ≤ vt.cursor.y
  · rw [if_pos hy] at h; cases h; exact sameOuter_refl vt
  · rw [if_neg hy] at h
    cases h1 : vt.grid[vt.cursor.y]? with
    | none => rw [h1] at h; exact absurd h (by simp)
    | some row => rw [h1] at h; cases h; exact ⟨rfl, rfl, rfl, rfl⟩

theorem insert_chars_frame {vt vt' : VirtualTerminal} {count : Nat}
    (h : vt.insert_chars count = some vt') : SameOuter vt vt' := by
  unfold VirtualTerminal.insert_chars at h
  by_cases hy : vt.rows ≤ vt.cursor.y
  · rw [if_pos hy] at h; cases h; exact sameOuter_refl vt
  · rw [if_neg hy] at h
    cases h1 : vt.grid[vt.cursor.y]? with
    | none => rw [h1] at h; exact absurd h (by simp)
    | some row => rw [h1] at h; cases h; exact ⟨rfl, rfl, rfl, rfl⟩

theorem erase_chars_frame {vt vt' : VirtualTerminal} {count : Nat}
    (h : vt.erase_chars count = some vt') : SameOuter vt vt' := by
  unfold VirtualTerminal.erase_chars at h
  by_cases hy : vt.rows ≤ vt.cursor.y
  · rw [if_pos hy] at h; cases h; exact sameOuter_refl vt
  · rw [if_neg hy] at h
    cases h1 : writeCells vt.grid vt.cursor.y vt.cursor.x
        (min (vt.cursor.x + count) vt.cols) Cell.blank with
    | none => rw [h1] at h; exact absurd h (by simp)
    | some g1 => rw [h1] at h; cases h; exact ⟨rfl, rfl, rfl, rfl⟩

theorem execute_frame {vt vt' : VirtualTerminal} {byte : Nat}
    (h : vt.execute byte = some vt') : SameOuter vt vt' := by
  unfold VirtualTerminal.execute at h
  split at h
  · cases h; exact sameOuter_refl vt
  · cases h; exact ⟨rfl, rfl, rfl, rfl⟩
  · cases h; exact ⟨rfl, rfl, rfl, rfl⟩
  · by_cases hcond : vt.scroll_bottom ≤ vt.cursor.y + 1
    · rw [if_pos hcond] at h
      exact (scroll_up_spec h).2.2.2.2.2.2.1
    · rw [if_neg hcond] at h; cases h; exact ⟨rfl, rfl, rfl, rfl⟩
  · by_cases hcond : vt.scroll_bottom ≤ vt.cursor.y + 1
    · rw [if_pos hcond] at h
      exact (scroll_up_spec h).2.2.2.2.2.2.1
    · rw [if_neg hcond] at h; cases h; exact ⟨rfl, rfl, rfl, rfl⟩
  · by_cases hcond : vt.scroll_bottom ≤ vt.cursor.y + 1
    · rw [if_pos hcond] at h
      exact (scroll_up_spec h).2.2.2.2.2.2.1
    · rw [if_neg hcond] at h; cases h; exact ⟨rfl, rfl, rfl, rfl⟩
  · cases h; exact ⟨rfl, rfl, rfl, rfl⟩
  · cases h; exact sameOuter_refl vt

theorem esc_dispatch_frame {vt vt' : VirtualTerminal} {ics : List Nat}
    {byte : Nat} (hne : byte ≠ 0x63)
    (h : vt.esc_dispatch ics byte = some vt') : SameOuter vt vt' := by
  unfold VirtualTerminal.esc_dispatch at h
  split at h
  · by_cases hcond : vt.scroll_bottom ≤ vt.cursor.y + 1
    · rw [if_pos hcond] at h
      exact (scroll_up_spec h).2.2.2.2.2.2.1
    · rw [if_neg hcond] at h; cases h; exact ⟨rfl, rfl, rfl, rfl⟩
  · by_cases hcond : vt.cursor.y ≤ vt.scroll_top
    · rw [if_pos hcond] at h
      exact (scroll_down_spec h).2.2.2.2.2.2.1
    · rw [if_neg hcond] at h; cases h; exact ⟨rfl, rfl, rfl, rfl⟩
  · cases h; exact ⟨rfl, rfl, rfl, rfl⟩
  · cases hs : vt.saved_cursor with
    | some saved => rw [hs] at h; cases h; exact ⟨rfl, rfl, rfl, rfl⟩
    | none => rw [hs] at h; cases h; exact sameOuter_refl vt
  · exact absurd rfl hne
  · cases h; exact sameOuter_refl vt

theorem restore_grid_cwd (vt : VirtualTerminal) :
    vt.restore_grid.reported_cwd = vt.reported_cwd := by
  unfold VirtualTerminal.restore_grid
  cases vt.saved_grid <;> rfl

theorem restore_scrollback_cwd (vt : VirtualTerminal) :
    vt.restore_scrollback.reported_cwd = vt.reported_cwd := by
  unfold VirtualTerminal.restore_scrollback
  cases vt.saved_scrollback <;> rfl

theorem restore_main_cursor_cwd (vt : VirtualTerminal) :
    vt.restore_main_cursor.reported_cwd = vt.reported_cwd := by
  unfold VirtualTerminal.restore_main_cursor
  cases vt.saved_main_cursor <;> rfl

theorem leave_alternate_screen_cwd (vt : VirtualTerminal) :
    vt.leave_alternate_screen.reported_cwd = vt.reported_cwd :=
  (restore_main_cursor_cwd _).trans
    ((restore_scrollback_cwd _).trans (restore_grid_cwd vt))

theorem dec_private_mode_cwd (set : Bool) (vt : VirtualTerminal) (code : Nat) :
    (VirtualTerminal.dec_private_mode set vt code).reported_cwd =
      vt.reported_cwd := by
  unfold VirtualTerminal.dec_private_mode
  split
  · rfl
  · by_cases hs : set = true
    · rw [if_pos hs]; rfl
    · rw [if_neg hs]; exact leave_alternate_screen_cwd vt
  · by_cases hs : set = true
    · rw [if_pos hs]; rfl
    · rw [if_neg hs]; exact leave_alternate_screen_cwd vt
  · by_cases hs : set = true
    · rw [if_pos hs]; rfl
    · rw [if_neg hs]; exact leave_alternate_screen_cwd vt
  · rfl

theorem foldl_dec_cwd (set : Bool) :
    ∀ (p : List Nat) (vt : VirtualTerminal),
      (p.foldl (VirtualTerminal.dec_private_mode set) vt).reported_cwd =
        vt.reported_cwd := by
  intro p
  induction p with
  | nil => intro vt; rfl
  | cons code rest ih =>
    intro vt
    rw [List.foldl_cons, ih, dec_private_mode_cwd]

theorem dec_private_mode_saved {set : Bool} {vt : VirtualTerminal} {code : Nat}
    (hcode : ¬(code = 1049 ∨ code = 1047 ∨ code = 47)) :
    SavedEq vt (VirtualTerminal.dec_private_mode set vt code) := by
  unfold VirtualTerminal.dec_private_mode
  split
  · exact ⟨rfl, rfl, rfl⟩
  · exact absurd (Or.inl rfl) hcode
  · exact absurd (Or.inr (Or.inl rfl)) hcode
  · exact absurd (Or.inr (Or.inr rfl)) hcode
  · exact ⟨rfl, rfl, rfl⟩

theorem foldl_dec_saved {set : Bool} :
    ∀ {p : List Nat} {vt : VirtualTerminal},
      (∀ code ∈ p, ¬(code = 1049 ∨ code = 1047 ∨ code = 47)) →
      SavedEq vt (p.foldl (VirtualTerminal.dec_private_mode set) vt) := by
  intro p
  induction p with
  | nil => intro vt _; exact savedEq_refl vt
  | cons code rest ih =>
    intro vt hp
    rw [List.foldl_cons]
    exact savedEq_trans (dec_private_mode_saved (hp code (by simp)))
      (ih (fun z hz => hp z (by simp [hz])))

theorem csi_dispatch_cwd {vt vt' : VirtualTerminal} {p ics : List Nat}
    {action : Nat} (h : vt.csi_dispatch p ics action = some vt') :
    vt'.reported_cwd = vt.reported_cwd := by
  unfold VirtualTerminal.csi_dispatch at h
  split at h
  all_goals first
  | (cases h; rfl)
  | (exact (put_char_frame h).2.2.2)
  | (exact (erase_in_display_frame h).2.2.2)
  | (exact (erase_in_line_frame h).2.2.2)
  | (exact (iterM_pres (P := fun s => s.reported_cwd = vt.reported_cwd)
      (fun s s' hP hs => ((insert_lines_step_frame hs).2.2.2).trans hP) rfl h))
  | (exact (iterM_pres (P := fun s => s.reported_cwd = vt.reported_cwd)
      (fun s s' hP hs => ((delete_lines_step_frame hs).2.2.2).trans hP) rfl h))
  | (exact (delete_chars_frame h).2.2.2)
  | (exact (iterM_pres (P := fun s => s.reported_cwd = vt.reported_cwd)
      (fun s s' hP hs => ((scroll_up_spec hs).2.2.2.2.2.2.1.2.2.2).trans hP) rfl h))
  | (exact (iterM_pres (P := fun s => s.reported_cwd = vt.reported_cwd)
      (fun s s' hP hs => ((scroll_down_spec hs).2.2.2.2.2.2.1.2.2.2).trans hP) rfl h))
  | (exact (insert_chars_frame h).2.2.2)
  | (exact (erase_chars_frame h).2.2.2)
  | skip
  -- remaining: 'h', 'l', 'u', 'r', 'n'
  case _ =>  -- 'h'
    by_cases hq : ics = [0x3F]
    · rw [if_pos hq] at h; cases h; exact foldl_dec_cwd true p vt
    · rw [if_neg hq] at h; cases h; rfl
  case _ =>  -- 'l'
    by_cases hq : ics = [0x3F]
    · rw [if_pos hq] at h; cases h; exact foldl_dec_cwd false p vt
    · rw [if_neg hq] at h; cases h; rfl
  case _ =>  -- 'u'
    cases hs : vt.saved_cursor with
    | some saved => rw [hs] at h; cases h; rfl
    | none => rw [hs] at h; cases h; rfl
  case _ =>  -- 'r'
    by_cases hq : ics = ([] : List Nat)
    · rw [if_pos hq] at h; simp only at h; cases h; rfl
    · rw [if_neg hq] at h; cases h; rfl
  case _ =>  -- 'n'
    split at h
    · cases h; rfl
    · cases h; rfl
    · cases h; rfl

theorem csi_dispatch_saved {vt vt' : VirtualTerminal} {p ics : List Nat}
    {action : Nat}
    (halt : (action = 0x68 ∨ action = 0x6C) → ics = [0x3F] →
      ∀ code ∈ p, ¬(code = 1049 ∨ code = 1047 ∨ code = 47))
    (h : vt.csi_dispatch p ics action = some vt') : SavedEq vt vt' := by
  unfold VirtualTerminal.csi_dispatch at h
  split at h
  all_goals first
  | (cases h; exact savedEq_refl vt)
  | (exact sameOuter_savedEq (put_char_frame h))
  | (exact sameOuter_savedEq (erase_in_display_frame h))
  | (exact sameOuter_savedEq (erase_in_line_frame h))
  | (exact (iterM_pres (P := fun s => SavedEq vt s)
      (fun s s' hP hs => savedEq_trans hP (sameOuter_savedEq (insert_lines_step_frame hs)))
      (savedEq_refl vt) h))
  | (exact (iterM_pres (P := fun s => SavedEq vt s)
      (fun s s' hP hs => savedEq_trans hP (sameOuter_savedEq (delete_lines_step_frame hs)))
      (savedEq_refl vt) h))
  | (exact sameOuter_savedEq (delete_chars_frame h))
  | (exact (iterM_pres (P := fun s => SavedEq vt s)
      (fun s s' hP hs => savedEq_trans hP
        (sameOuter_savedEq (scroll_up_spec hs).2.2.2.2.2.2.1))
      (savedEq_refl vt) h))
  | (exact (iterM_pres (P := fun s => SavedEq vt s)
      (fun s s' hP hs => savedEq_trans hP
        (sameOuter_savedEq (scroll_down_spec hs).2.2.2.2.2.2.1))
      (savedEq_refl vt) h))
  | (exact sameOuter_savedEq (insert_chars_frame h))
  | (exact sameOuter_savedEq (erase_chars_frame h))
  | skip
  -- remaining: 'h', 'l', 'u', 'r', 'n'
  case _ =>
    by_cases hq : ics = [0x3F]
    · rw [if_pos hq] at h; cases h; exact foldl_dec_saved (halt (Or.inl rfl) hq)
    · rw [if_neg hq] at h; cases h; exact savedEq_refl vt
  case _ =>
    by_cases hq : ics = [0x3F]
    · rw [if_pos hq] at h; cases h; exact foldl_dec_saved (halt (Or.inr rfl) hq)
    · rw [if_neg hq] at h; cases h; exact savedEq_refl vt
  case _ =>
    cases hs : vt.saved_cursor with
    | some saved => rw [hs] at h; cases h; exact ⟨rfl, rfl, rfl⟩
    | none => rw [hs] at h; cases h; exact savedEq_refl vt
  case _ =>
    by_cases hq : ics = ([] : List Nat)
    · rw [if_pos hq] at h; simp only at h; cases h; exact ⟨rfl, rfl, rfl⟩
    · rw [if_neg hq] at h; cases h; exact savedEq_refl vt
  case _ =>
    split at h
    · cases h; exact ⟨rfl, rfl, rfl⟩
    · cases h; exact ⟨rfl, rfl, rfl⟩
    · cases h; exact savedEq_refl vt

theorem osc_dispatch_saved {vt vt' : VirtualTerminal} {ps : List (List Nat)}
    (h : vt.osc_dispatch ps = some vt') : SavedEq vt vt' := by
  unfold VirtualTerminal.osc_dispatch at h
  cases hh : ps.head? with
  | none => rw [hh] at h; cases h; exact savedEq_refl vt
  | some first =>
    rw [hh] at h
    try simp only at h
    by_cases h7 : first = [0x37]
    · rw [if_pos h7] at h
      cases h1 : ps[1]? with
      | none => rw [h1] at h; cases h; exact savedEq_refl vt
      | some uri =>
        rw [h1] at h
        try simp only at h
        cases h2 : utf8Decode uri with
        | none => rw [h2] at h; cases h; exact savedEq_refl vt
        | some dec =>
          rw [h2] at h
          try simp only at h
          by_cases h3 : fileScheme.isPrefixOf uri = true
          · rw [if_pos h3] at h
            try simp only at h
            by_cases h4 : (uri.drop 7).any (fun b => b = 0x2F) = true
            · rw [if_pos h4] at h
              cases h5 : percent_decode
                  ((uri.drop 7).dropWhile (fun b => ¬ b = 0x2F)) with
              | none => rw [h5] at h; exact absurd h (by simp)
              | some decoded => rw [h5] at h; cases h; exact ⟨rfl, rfl, rfl⟩
            · rw [if_neg h4] at h; cases h; exact savedEq_refl vt
          · rw [if_neg h3] at h; cases h; exact savedEq_refl vt
    · rw [if_neg h7] at h; cases h; exact savedEq_refl vt

theorem osc_dispatch_cwd {vt vt' : VirtualTerminal} {ps : List (List Nat)}
    (hwf : osc7WellFormed ps = false)
    (h : vt.osc_dispatch ps = some vt') :
    vt'.reported_cwd = vt.reported_cwd := by
  unfold VirtualTerminal.osc_dispatch at h
  unfold osc7WellFormed at hwf
  cases hh : ps.head? with
  | none => rw [hh] at h; cases h; rfl
  | some first =>
    rw [hh] at h hwf
    try simp only at h
    by_cases h7 : first = [0x37]
    · rw [if_pos h7] at h
      cases h1 : ps[1]? with
      | none => rw [h1] at h; cases h; rfl
      | some uri =>
        rw [h1] at h hwf
        try simp only at h
        simp only [h7, beq_self_eq_true, Bool.true_and] at hwf
        cases h2 : utf8Decode uri with
        | none => rw [h2] at h; cases h; rfl
        | some dec =>
          rw [h2] at h
          try simp only at h
          by_cases h3 : fileScheme.isPrefixOf uri = true
          · rw [if_pos h3] at h
            try simp only at h
            by_cases h4 : (uri.drop 7).any (fun b => b = 0x2F) = true
            · exfalso
              simp [h2, h3, h4] at hwf
            · rw [if_neg h4] at h; cases h; rfl
          · rw [if_neg h3] at h; cases h; rfl
    · rw [if_neg h7] at h; cases h; rfl

theorem applyAct_savedEq {vt vt' : VirtualTerminal} {a : Act}
    (hA : a.touchesAlt = false) (h : applyAct vt a = some vt') :
    SavedEq vt vt' := by
  cases a with
  | print cp => exact sameOuter_savedEq (put_char_frame h)
  | exec b => exact sameOuter_savedEq (execute_frame h)
  | csi p ics f =>
    refine csi_dispatch_saved ?_ h
    intro hf hq code hcode hc3
    unfold Act.touchesAlt at hA
    rw [hq] at hA
    have hany : p.any (fun code => code == 1049 || code == 1047 || code == 47) = true :=
      List.any_eq_true.mpr ⟨code, hcode,
        by rcases hc3 with h' | h' | h' <;> simp [h']⟩
    rcases hf with hf | hf <;> rw [hf] at hA <;> simp [hany] at hA
  | esc ics f =>
    refine sameOuter_savedEq (@esc_dispatch_frame vt vt' ics f ?_ h)
    intro hf
    unfold Act.touchesAlt at hA
    rw [hf] at hA
    simp at hA
  | osc ps => exact osc_dispatch_saved h

theorem applyAct_cwdEq {vt vt' : VirtualTerminal} {a : Act}
    (hC : a.setsCwd = false) (h : applyAct vt a = some vt') :
    vt'.reported_cwd = vt.reported_cwd := by
  cases a with
  | print cp => exact (put_char_frame h).2.2.2
  | exec b => exact (execute_frame h).2.2.2
  | csi p ics f => exact csi_dispatch_cwd h
  | esc ics f =>
    refine (@esc_dispatch_frame vt vt' ics f ?_ h).2.2.2
    intro hf
    unfold Act.setsCwd at hC
    rw [hf] at hC
    simp at hC
  | osc ps =>
    unfold Act.setsCwd at hC
    exact osc_dispatch_cwd hC h

theorem applyActs_savedEq {vt vt' : VirtualTerminal} :
    ∀ {acts : List Act}, (∀ a ∈ acts, a.touchesAlt = false) →
      applyActs vt acts = some vt' → SavedEq vt vt' := by
  suffices hgen : ∀ (acts : List Act) (v0 v1 : VirtualTerminal),
      (∀ a ∈ acts, a.touchesAlt = false) →
      applyActs v0 acts = some v1 → SavedEq v0 v1 by
    intro acts hA h
    exact hgen acts vt vt' hA h
  intro acts
  induction acts with
  | nil => intro v0 v1 _ h; cases h; exact savedEq_refl v0
  | cons a rest ih =>
    intro v0 v1 hA h
    unfold applyActs at h
    rw [List.foldlM_cons] at h
    cases ha : applyAct v0 a with
    | none => rw [ha] at h; exact absurd h (by simp)
    | some v2 =>
      rw [ha] at h
      exact savedEq_trans (applyAct_savedEq (hA a (by simp)) ha)
        (ih v2 v1 (fun z hz => hA z (by simp [hz])) h)

/-! ## Claim C5: alternate-screen round trip -/

theorem applyActs_append (vt : VirtualTerminal) (l1 l2 : List Act) :
    applyActs vt (l1 ++ l2) =
      (applyActs vt l1).bind (fun v => applyActs v l2) := by
  unfold applyActs
  induction l1 generalizing vt with
  | nil => simp
  | cons a rest ih =>
    rw [List.cons_append, List.foldlM_cons, List.foldlM_cons]
    cases ha : applyAct vt a with
    | none => simp
    | some v2 =>
      simp only [Option.bind_eq_bind, Option.some_bind]
      exact ih v2

theorem feed_decompose (bytes : List Nat) :
    ∀ (p : PState) (vt : VirtualTerminal),
      feed (p, vt) bytes =
        (applyActs vt (parseTrace p bytes)).map
          (fun v => (parseFinal p bytes, v)) := by
  induction bytes with
  | nil =>
    intro p vt
    simp [feed, parseTrace, parseFinal, applyActs]
  | cons b bs ih =>
    intro p vt
    unfold feed
    rw [List.foldlM_cons]
    unfold stepByte parseTrace parseFinal
    cases hp : pstep p b with
    | mk acts p' =>
      simp only
      rw [applyActs_append]
      cases ha : applyActs vt acts with
      | none => simp
      | some v2 =>
        simp only [Option.bind_eq_bind, Option.some_bind]
        exact ih p' v2

/-- Feeding the DECSET 1049 sequence from the ground parser state enters
the alternate screen and returns to ground. -/
theorem feed_enterAlt (v : VirtualTerminal) :
    feed (.ground, v) enterAltBytes =
      some (.ground, v.enter_alternate_screen) := rfl

theorem applyAct_leaveAlt (v : VirtualTerminal) :
    applyAct v (Act.csi [1049] [0x3F] 0x6C) =
      some v.leave_alternate_screen := rfl

/-- Parsing the DECRST 1049 sequence from any parser state dispatches the
leave action, preceded only by actions that cannot touch the
alternate-screen snapshots (a pending OSC dispatch or a replacement
character for a torn UTF-8 sequence). -/
theorem leave_parse (q : PState) :
    ∃ pre : List Act,
      parseTrace q leaveAltBytes = pre ++ [Act.csi [1049] [0x3F] 0x6C] ∧
      ∀ a ∈ pre, a.touchesAlt = false := by
  cases q with
  | ground => exact ⟨[], rfl, by simp⟩
  | escape => exact ⟨[], rfl, by simp⟩
  | escInter ics => exact ⟨[], rfl, by simp⟩
  | csiEntry => exact ⟨[], rfl, by simp⟩
  | csiParam ps cur ics => exact ⟨[], rfl, by simp⟩
  | csiInter ps cur ics => exact ⟨[], rfl, by simp⟩
  | csiIgnore => exact ⟨[], rfl, by simp⟩
  | oscStr ps cur =>
    exact ⟨[Act.osc (ps ++ [cur])], rfl, by simp [Act.touchesAlt]⟩
  | dcs => exact ⟨[], rfl, by simp⟩
  | sosPmApc => exact ⟨[], rfl, by simp⟩
  | utf8 need acc =>
    exact ⟨[Act.print 0xFFFD], rfl, by simp [Act.touchesAlt]⟩

theorem leave_effect {vt : VirtualTerminal} {g sb : List (List Cell)}
    {cu : CursorState}
    (hg : vt.saved_grid = some g) (hsb : vt.saved_scrollback = some sb)
    (hcu : vt.saved_main_cursor = some cu) :
    vt.leave_alternate_screen.grid = g ∧
    vt.leave_alternate_screen.cursor = cu ∧
    vt.leave_alternate_screen.scrollback = sb := by
  unfold VirtualTerminal.leave_alternate_screen VirtualTerminal.restore_grid
    VirtualTerminal.restore_scrollback VirtualTerminal.restore_main_cursor
  rw [hg]
  simp only
  rw [hsb]
  simp only
  rw [hcu]
  exact ⟨rfl, rfl, rfl⟩

/-- C5: from any terminal whose parser is between sequences (ground
state) and which is not already on the alternate screen, feeding
`CSI ? 1049 h`, then any byte sequence whose action trace neither
switches the alternate screen nor resets the terminal, then
`CSI ? 1049 l`, restores exactly the grid, cursor and scrollback present
at entry (whenever the whole feed returns normally). -/
theorem c5_alt_screen_round_trip (v : VirtualTerminal) (b : List Nat)
    (hAlt : v.saved_grid = none ∧ v.saved_scrollback = none ∧
      v.saved_main_cursor = none)
    (hMid : ∀ a ∈ parseTrace .ground b, a.touchesAlt = false)
    (st' : PState × VirtualTerminal)
    (hRun : feed (.ground, v) (enterAltBytes ++ (b ++ leaveAltBytes)) = some st') :
    st'.2.grid = v.grid ∧ st'.2.cursor = v.cursor ∧
    st'.2.scrollback = v.scrollback := by
  rw [c3_feed_split_invariance, feed_enterAlt] at hRun
  simp only [Option.bind_eq_bind, Option.some_bind] at hRun
  rw [c3_feed_split_invariance] at hRun
  cases hb : feed (.ground, v.enter_alternate_screen) b with
  | none => rw [hb] at hRun; exact absurd hRun (by simp)
  | some st1 =>
    rw [hb] at hRun
    simp only [Option.bind_eq_bind, Option.some_bind] at hRun
    rw [feed_decompose] at hb
    cases ha : applyActs v.enter_alternate_screen (parseTrace .ground b) with
    | none => rw [ha] at hb; exact absurd hb (by simp)
    | some v2 =>
      rw [ha] at hb
      simp only [Option.map_some'] at hb
      have hsaved2 : SavedEq v.enter_alternate_screen v2 :=
        applyActs_savedEq hMid ha
      have hst1 : st1 = (parseFinal .ground b, v2) := (Option.some.inj hb).symm
      subst hst1
      rw [feed_decompose] at hRun
      obtain ⟨pre, hpre, hprealt⟩ := leave_parse (parseFinal .ground b)
      rw [hpre, applyActs_append] at hRun
      cases hp2 : applyActs v2 pre with
      | none => rw [hp2] at hRun; exact absurd hRun (by simp)
      | some v3 =>
        rw [hp2] at hRun
        simp only [Option.bind_eq_bind, Option.some_bind] at hRun
        have hsaved3 : SavedEq v2 v3 := applyActs_savedEq hprealt hp2
        have hone : applyActs v3 [Act.csi [1049] [0x3F] 0x6C] =
            some v3.leave_alternate_screen := by
          unfold applyActs
          rw [List.foldlM_cons]
          rw [applyAct_leaveAlt]
          rfl
        rw [hone] at hRun
        simp only [Option.map_some'] at hRun
        have hst' : st' = (parseFinal (parseFinal .ground b) leaveAltBytes,
            v3.leave_alternate_screen) := (Option.some.inj hRun).symm
        subst hst'
        have hg3 : v3.saved_grid = some v.grid :=
          hsaved3.1.trans (hsaved2.1.trans rfl)
        have hsb3 : v3.saved_scrollback = some v.scrollback :=
          hsaved3.2.1.trans (hsaved2.2.1.trans rfl)
        have hmc3 : v3.saved_main_cursor = some v.cursor :=
          hsaved3.2.2.trans (hsaved2.2.2.trans rfl)
        obtain ⟨e1, e2, e3⟩ := leave_effect hg3 hsb3 hmc3
        exact ⟨e1, e2, e3⟩

/-- C5 (witness): entering the alternate screen, printing `B` there and
leaving restores the original 1×1 terminal exactly. -/
theorem c5_alt_screen_round_trip_witness :
    feed (.ground, witnessC5) (enterAltBytes ++ ([0x42] ++ leaveAltBytes)) =
      some (.ground, witnessC5) ∧
    (witnessC5.grid = witnessC5.grid ∧ witnessC5.cursor = witnessC5.cursor ∧
      witnessC5.scrollback = witnessC5.scrollback) :=
  ⟨by decide,
   c5_alt_screen_round_trip witnessC5 [0x42] ⟨rfl, rfl, rfl⟩ (by decide)
     (.ground, witnessC5) (by decide)⟩

/-! ## Claim C4: wrap behaviour of `put_char` -/

/-- C4 (counterexample): with scroll region `[0, 2)` on a 2×3 terminal
and the cursor parked past the last column of the region's bottom row,
printing `C` wraps to `cursor.y = 2 = scroll_bottom` — the row below the
scroll region — performing no scroll at all, instead of scrolling once
and clamping to `scroll_bottom − 1` as the claim states. -/
theorem c4_counterexample :
    ((runFeed 2 3 [0x1B, 0x5B, 0x31, 0x3B, 0x32, 0x72,
        0x1B, 0x5B, 0x32, 0x3B, 0x31, 0x48, 0x41, 0x42, 0x43]).map
      (fun v => (decide (v.cursor.y = v.scroll_bottom - 1),
        v.scrollback.length))) = some (false, 0) := by decide

/-- C4 (amended): when a printable character of width 1 or 2 arrives
with `cursor.x ≥ cols`, the wrap sets `cursor.x = 0` and increments
`cursor.y`; if that reaches the bottom of the **grid** (`rows`, not
`scroll_bottom`), exactly one scroll-region-up is performed and
`cursor.y` is clamped to `rows − 1`; the glyph is then written by the
ordinary write phase. -/
theorem c4_put_char_wrap (vt : VirtualTerminal) (cp : Nat)
    (hx : vt.cols ≤ vt.cursor.x)
    (hw : charWidthOpt cp = some 1 ∨ charWidthOpt cp = some 2) :
    vt.put_char cp =
      (if vt.rows ≤ vt.cursor.y + 1 then
        (VirtualTerminal.scroll_up
            { vt with cursor := { vt.cursor with x := 0, y := vt.cursor.y + 1 } }).bind
          (fun v2 => VirtualTerminal.put_char_write
            { v2 with cursor := { v2.cursor with y := v2.rows - 1 } } cp
            ((charWidthOpt cp).getD 1))
      else
        VirtualTerminal.put_char_write
          { vt with cursor := { vt.cursor with x := 0, y := vt.cursor.y + 1 } } cp
          ((charWidthOpt cp).getD 1)) := by
  have hz : ¬(charWidthOpt cp = some 0 ∨ charWidthOpt cp = none) := by
    rcases hw with h | h <;> simp [h]
  unfold VirtualTerminal.put_char
  rw [if_neg hz, if_pos hx]
  by_cases hy : vt.rows ≤ vt.cursor.y + 1
  · rw [if_pos hy, if_pos hy]
    cases h1 : VirtualTerminal.scroll_up
        { vt with cursor := { vt.cursor with x := 0, y := vt.cursor.y + 1 } } with
    | none => simp
    | some v2 => simp
  · rw [if_neg hy, if_neg hy]

/-- C4 (witness): the amended wrap equation at a concrete state. -/
theorem c4_put_char_wrap_witness :
    witnessC4.cols ≤ witnessC4.cursor.x ∧
    witnessC4.put_char 0x41 =
      (if witnessC4.rows ≤ witnessC4.cursor.y + 1 then
        (VirtualTerminal.scroll_up
            { witnessC4 with cursor :=
              { witnessC4.cursor with x := 0, y := witnessC4.cursor.y + 1 } }).bind
          (fun v2 => VirtualTerminal.put_char_write
            { v2 with cursor := { v2.cursor with y := v2.rows - 1 } } 0x41
            ((charWidthOpt 0x41).getD 1))
      else
        VirtualTerminal.put_char_write
          { witnessC4 with cursor :=
            { witnessC4.cursor with x := 0, y := witnessC4.cursor.y + 1 } } 0x41
          ((charWidthOpt 0x41).getD 1)) :=
  ⟨by decide, c4_put_char_wrap witnessC4 0x41 (by decide) (Or.inl (by decide))⟩

/-! ## Claim C6: the scrollback bound survives every feed and resize -/

theorem scroll_up_sbb {vt vt' : VirtualTerminal} (hS : Sbb vt)
    (h : vt.scroll_up = some vt') : Sbb vt' := by
  obtain ⟨_, _, _, _, _, _, ⟨_, hssb, _, _⟩, _, _, _, _, hb⟩ := scroll_up_spec h
  exact ⟨hb hS.len, hssb ▸ hS.saved⟩

theorem scroll_down_sbb {vt vt' : VirtualTerminal} (hS : Sbb vt)
    (h : vt.scroll_down = some vt') : Sbb vt' := by
  obtain ⟨_, _, _, _, _, _, ⟨_, hssb, _, _⟩, hsb, _, _⟩ := scroll_down_spec h
  exact ⟨hsb ▸ hS.len, hssb ▸ hS.saved⟩

theorem put_char_write_sbb {v1 vt' : VirtualTerminal} {cp w : Nat}
    (hS : Sbb v1) (h : v1.put_char_write cp w = some vt') : Sbb vt' := by
  obtain ⟨_, hssb, _, _⟩ := put_char_write_frame h
  have hsb : vt'.scrollback = v1.scrollback := by
    unfold VirtualTerminal.put_char_write at h
    by_cases hg : v1.cursor.y < v1.rows ∧ v1.cursor.x < v1.cols
    · rw [if_pos hg] at h
      cases h1 : setCell v1.grid v1.cursor.y v1.cursor.x
          { ch := [cp], style := v1.current_style } with
      | none => rw [h1] at h; exact absurd h (by simp)
      | some g =>
        rw [h1] at h
        simp only at h
        by_cases hw : w = 2 ∧ v1.cursor.x + 1 < v1.cols
        · rw [if_pos hw] at h
          cases h3 : setCell g v1.cursor.y (v1.cursor.x + 1)
              { ch := [], style := v1.current_style } with
          | none => rw [h3] at h; exact absurd h (by simp)
          | some g2 => rw [h3] at h; cases h; rfl
        · rw [if_neg hw] at h; cases h; rfl
    · rw [if_neg hg] at h
      simp only at h
      by_cases hw : w = 2 ∧ v1.cursor.x + 1 < v1.cols
      · rw [if_pos hw] at h
        cases h3 : setCell v1.grid v1.cursor.y (v1.cursor.x + 1)
            { ch := [], style := v1.current_style } with
        | none => rw [h3] at h; exact absurd h (by simp)
        | some g2 => rw [h3] at h; cases h; rfl
      · rw [if_neg hw] at h; cases h; rfl
  exact ⟨hsb ▸ hS.len, hssb ▸ hS.saved⟩

theorem put_char_sbb {vt vt' : VirtualTerminal} {cp : Nat}
    (hS : Sbb vt) (h : vt.put_char cp = some vt') : Sbb vt' := by
  unfold VirtualTerminal.put_char at h
  by_cases hz : charWidthOpt cp = some 0 ∨ charWidthOpt cp = none
  · rw [if_pos hz] at h
    by_cases hc0 : 0 < vt.cursor.x ∧ vt.cursor.y < vt.rows
    · rw [if_pos hc0] at h
      cases h1 : vt.grid[vt.cursor.y]? with
      | none => rw [h1] at h; exact absurd h (by simp)
      | some row =>
        rw [h1] at h
        simp only at h
        cases h2 : row[vt.cursor.x - 1]? with
        | none => rw [h2] at h; exact absurd h (by simp)
        | some cell =>
          rw [h2] at h
          simp only at h
          by_cases h3 : cell.ch = [] ∧ 0 < vt.cursor.x - 1
          · rw [if_pos h3] at h
            cases h4 : row[vt.cursor.x - 1 - 1]? with
            | none => rw [h4] at h; exact absurd h (by simp)
            | some cell2 => rw [h4] at h; cases h; exact ⟨hS.len, hS.saved⟩
          · rw [if_neg h3] at h; cases h; exact ⟨hS.len, hS.saved⟩
    · rw [if_neg hc0] at h; cases h; exact hS
  · rw [if_neg hz] at h
    by_cases hwrap : vt.cols ≤ vt.cursor.x
    · rw [if_pos hwrap] at h
      simp only at h
      by_cases hy : vt.rows ≤ vt.cursor.y + 1
      · rw [if_pos hy] at h
        cases h1 : VirtualTerminal.scroll_up
            { vt with cursor := { vt.cursor with x := 0, y := vt.cursor.y + 1 } } with
        | none => rw [h1] at h; exact absurd h (by simp)
        | some v2 =>
          rw [h1] at h
          simp only at h
          have hS2 : Sbb v2 := @scroll_up_sbb
            { vt with cursor := { vt.cursor with x := 0, y := vt.cursor.y + 1 } }
            v2 ⟨hS.len, hS.saved⟩ h1
          exact @put_char_write_sbb
            { v2 with cursor := { v2.cursor with y := v2.rows - 1 } }
            vt' cp ((charWidthOpt cp).getD 1) ⟨hS2.len, hS2.saved⟩ h
      · rw [if_neg hy] at h
        exact @put_char_write_sbb
          { vt with cursor := { vt.cursor with x := 0, y := vt.cursor.y + 1 } }
          vt' cp ((charWidthOpt cp).getD 1) ⟨hS.len, hS.saved⟩ h
    · rw [if_neg hwrap] at h
      simp only at h
      exact put_char_write_sbb hS h

theorem grid_only_sbb {vt : VirtualTerminal} {g : List (List Cell)}
    (hS : Sbb vt) : Sbb { vt with grid := g } := ⟨hS.len, hS.saved⟩

theorem erase_in_display_sbb {vt vt' : VirtualTerminal} {mode : Nat}
    (hS : Sbb vt) (h : vt.erase_in_display mode = some vt') : Sbb vt' := by
  unfold VirtualTerminal.erase_in_display at h
  repeat' split at h
  all_goals first
    | (cases h; exact ⟨hS.len, hS.saved⟩)
    | exact absurd h (by simp)

theorem erase_in_line_sbb {vt vt' : VirtualTerminal} {mode : Nat}
    (hS : Sbb vt) (h : vt.erase_in_line mode = some vt') : Sbb vt' := by
  unfold VirtualTerminal.erase_in_line at h
  repeat' split at h
  all_goals first
    | (cases h; exact ⟨hS.len, hS.saved⟩)
    | exact absurd h (by simp)

theorem insert_lines_step_sbb {bottom : Nat} {vt vt' : VirtualTerminal}
    (hS : Sbb vt) (h : VirtualTerminal.insert_lines_step bottom vt = some vt') :
    Sbb vt' := by
  unfold VirtualTerminal.insert_lines_step at h
  repeat' (first | (split at h) | (simp only at h))
  all_goals first
    | (cases h; exact ⟨hS.len, hS.saved⟩)
    | exact absurd h (by simp)

theorem delete_lines_step_sbb {bottom : Nat} {vt vt' : VirtualTerminal}
    (hS : Sbb vt) (h : VirtualTerminal.delete_lines_step bottom vt = some vt') :
    Sbb vt' := by
  unfold VirtualTerminal.delete_lines_step at h
  repeat' (first | (split at h) | (simp only at h))
  all_goals first
    | (cases h; exact ⟨hS.len, hS.saved⟩)
    | exact absurd h (by simp)

theorem delete_chars_sbb {vt vt' : VirtualTerminal} {count : Nat}
    (hS : Sbb vt) (h : vt.delete_chars count = some vt') : Sbb vt' := by
  unfold VirtualTerminal.delete_chars at h
  repeat' split at h
  all_goals first
    | (cases h; exact ⟨hS.len, hS.saved⟩)
    | exact absurd h (by simp)

theorem insert_chars_sbb {vt vt' : VirtualTerminal} {count : Nat}
    (hS : Sbb vt) (h : vt.insert_chars count = some vt') : Sbb vt' := by
  unfold VirtualTerminal.insert_chars at h
  repeat' split at h
  all_goals first
    | (cases h; exact ⟨hS.len, hS.saved⟩)
    | exact absurd h (by simp)

theorem erase_chars_sbb {vt vt' : VirtualTerminal} {count : Nat}
    (hS : Sbb vt) (h : vt.erase_chars count = some vt') : Sbb vt' := by
  unfold VirtualTerminal.erase_chars at h
  repeat' split at h
  all_goals first
    | (cases h; exact ⟨hS.len, hS.saved⟩)
    | exact absurd h (by simp)

theorem execute_sbb {vt vt' : VirtualTerminal} {byte : Nat}
    (hS : Sbb vt) (h : vt.execute byte = some vt') : Sbb vt' := by
  unfold VirtualTerminal.execute at h
  repeat' split at h
  all_goals first
    | (cases h; exact ⟨hS.len, hS.saved⟩)
    | exact absurd h (by simp)
    | exact scroll_up_sbb hS h

theorem enter_alternate_screen_sbb {vt : VirtualTerminal} (hS : Sbb vt) :
    Sbb vt.enter_alternate_screen :=
  ⟨Nat.zero_le _, fun sb hsb => (Option.some.inj hsb) ▸ hS.len⟩

theorem restore_grid_sbb {vt : VirtualTerminal} (hS : Sbb vt) :
    Sbb vt.restore_grid := by
  unfold VirtualTerminal.restore_grid
  cases vt.saved_grid with
  | none => exact hS
  | some g => exact ⟨hS.len, hS.saved⟩

theorem restore_scrollback_sbb {vt : VirtualTerminal} (hS : Sbb vt) :
    Sbb vt.restore_scrollback := by
  unfold VirtualTerminal.restore_scrollback
  cases hsb : vt.saved_scrollback with
  | none => exact hS
  | some sb => exact ⟨hS.saved sb hsb, fun z hz => nomatch hz⟩

theorem restore_main_cursor_sbb {vt : VirtualTerminal} (hS : Sbb vt) :
    Sbb vt.restore_main_cursor := by
  unfold VirtualTerminal.restore_main_cursor
  cases vt.saved_main_cursor with
  | none => exact hS
  | some cu => exact ⟨hS.len, hS.saved⟩

theorem leave_alternate_screen_sbb {vt : VirtualTerminal} (hS : Sbb vt) :
    Sbb vt.leave_alternate_screen :=
  restore_main_cursor_sbb (restore_scrollback_sbb (restore_grid_sbb hS))

theorem dec_private_mode_sbb {set : Bool} {vt : VirtualTerminal} {code : Nat}
    (hS : Sbb vt) : Sbb (VirtualTerminal.dec_private_mode set vt code) := by
  unfold VirtualTerminal.dec_private_mode
  split
  · exact ⟨hS.len, hS.saved⟩
  all_goals first
    | (by_cases hs : set = true
       · rw [if_pos hs]; exact enter_alternate_screen_sbb hS
       · rw [if_neg hs]; exact leave_alternate_screen_sbb hS)
    | exact hS

theorem foldl_dec_sbb {set : Bool} :
    ∀ {p : List Nat} {vt : VirtualTerminal}, Sbb vt →
      Sbb (p.foldl (VirtualTerminal.dec_private_mode set) vt) := by
  intro p
  induction p with
  | nil => intro vt hS; exact hS
  | cons code rest ih =>
    intro vt hS
    rw [List.foldl_cons]
    exact ih (dec_private_mode_sbb hS)

theorem esc_dispatch_sbb {vt vt' : VirtualTerminal} {ics : List Nat}
    {byte : Nat} (hS : Sbb vt) (h : vt.esc_dispatch ics byte = some vt') :
    Sbb vt' := by
  unfold VirtualTerminal.esc_dispatch at h
  repeat' split at h
  all_goals first
    | (cases h; exact ⟨hS.len, hS.saved⟩)
    | exact scroll_up_sbb hS h
    | exact scroll_down_sbb hS h
    | (cases h; constructor <;> simp [VirtualTerminal.new])
    | exact absurd h (by simp)

theorem osc_dispatch_sbb {vt vt' : VirtualTerminal} {ps : List (List Nat)}
    (hS : Sbb vt) (h : vt.osc_dispatch ps = some vt') : Sbb vt' := by
  unfold VirtualTerminal.osc_dispatch at h
  repeat' (first | (split at h) | (simp only at h))
  all_goals first
    | (cases h; exact ⟨hS.len, hS.saved⟩)
    | exact absurd h (by simp)

theorem csi_dispatch_sbb {vt vt' : VirtualTerminal} {p ics : List Nat}
    {action : Nat} (hS : Sbb vt)
    (h : vt.csi_dispatch p ics action = some vt') : Sbb vt' := by
  unfold VirtualTerminal.csi_dispatch at h
  split at h
  all_goals first
    | (cases h; exact ⟨hS.len, hS.saved⟩)
    | exact erase_in_display_sbb hS h
    | exact erase_in_line_sbb hS h
    | exact delete_chars_sbb hS h
    | exact insert_chars_sbb hS h
    | exact erase_chars_sbb hS h
    | exact iterM_pres (fun _ _ hP hs => insert_lines_step_sbb hP hs) hS h
    | exact iterM_pres (fun _ _ hP hs => delete_lines_step_sbb hP hs) hS h
    | exact iterM_pres (fun _ _ hP hs => scroll_up_sbb hP hs) hS h
    | exact iterM_pres (fun _ _ hP hs => scroll_down_sbb hP hs) hS h
    | skip
  all_goals repeat' split at h
  all_goals first
    | (cases h; exact ⟨hS.len, hS.saved⟩)
    | (cases h; exact foldl_dec_sbb hS)
    | exact absurd h (by simp)

theorem applyAct_sbb {vt vt' : VirtualTerminal} {a : Act}
    (hS : Sbb vt) (h : applyAct vt a = some vt') : Sbb vt' := by
  cases a with
  | print cp => exact put_char_sbb hS h
  | exec b => exact execute_sbb hS h
  | csi p ics f => exact csi_dispatch_sbb hS h
  | esc ics f => exact @esc_dispatch_sbb vt vt' ics f hS h
  | osc ps => exact osc_dispatch_sbb hS h

theorem stepByte_sbb {st st' : PState × VirtualTerminal} {b : Nat}
    (hS : Sbb st.2) (h : stepByte st b = some st') : Sbb st'.2 := by
  unfold stepByte at h
  cases hp : pstep st.1 b with
  | mk acts p' =>
    rw [hp] at h
    simp only at h
    cases ha : applyActs st.2 acts with
    | none => rw [ha] at h; exact absurd h (by simp)
    | some vt2 =>
      rw [ha] at h
      cases h
      exact foldlM_pres (fun _ _ _ hP hs => applyAct_sbb hP hs) hS ha

theorem resize_sbb {vt vt' : VirtualTerminal} {cols rows : Nat}
    (hS : Sbb vt) (h : vt.resize cols rows = some vt') : Sbb vt' := by
  unfold VirtualTerminal.resize at h
  repeat' (first | (split at h) | (simp only at h))
  all_goals first
    | (cases h; exact ⟨hS.len, hS.saved⟩)
    | exact absurd h (by simp)

theorem sbb_new (cols rows : Nat) : Sbb (VirtualTerminal.new cols rows) := by
  constructor <;> simp [VirtualTerminal.new]

theorem feed_sbb {st st' : PState × VirtualTerminal} {bytes : List Nat}
    (hS : Sbb st.2) (h : feed st bytes = some st') : Sbb st'.2 := by
  unfold feed at h
  exact foldlM_pres (fun s b s' hP hs => stepByte_sbb hP hs) hS h

theorem applyOp_sbb {st st' : PState × VirtualTerminal} {op : PaneOp}
    (hS : Sbb st.2) (h : applyOp st op = some st') : Sbb st'.2 := by
  cases op with
  | feedOp bytes => exact feed_sbb hS h
  | resizeOp c r =>
    simp only [applyOp] at h
    cases hr : st.2.resize c r with
    | none => rw [hr] at h; exact absurd h (by simp)
    | some v =>
      rw [hr] at h
      simp only [Option.map_some'] at h
      cases h
      exact resize_sbb hS hr

/-- **C6.** For every sequence of `feed` and `resize` operations from any
freshly constructed terminal, `scrollback.length ≤ 1000` holds after every
operation; and whenever a row is evicted off the top of the grid while the
scrollback already holds `MAX_SCROLLBACK` rows, the oldest scrollback row
is dropped: the new scrollback is the old one without its first row, with
the evicted grid row appended. -/
theorem c6_scrollback_bound (cols rows : Nat) (ops : List PaneOp)
    (st : PState × VirtualTerminal) (h : runOps cols rows ops = some st) :
    st.2.scrollback.length ≤ 1000 ∧
    (∀ vt vt' : VirtualTerminal, vt.scroll_top = 0 →
      vt.scroll_top < vt.scroll_bottom → vt.rows ≠ 0 →
      MAX_SCROLLBACK ≤ vt.scrollback.length →
      vt.scroll_up = some vt' →
      vt'.scrollback = vt.scrollback.drop 1 ++ vt.grid.take 1) := by
  constructor
  · exact (foldlM_pres (fun s op s' hP hs => applyOp_sbb hP hs)
      (sbb_new cols rows) h).len
  · intro vt vt' h0 hlt hr hfull hup
    simp only [MAX_SCROLLBACK] at hfull
    unfold VirtualTerminal.scroll_up at hup
    rw [if_neg (by simp only [not_or]; exact ⟨hr, Nat.not_le.mpr hlt⟩)] at hup
    cases hgrid : vt.grid with
    | nil =>
      rw [hgrid, h0] at hup
      simp [removeAt?] at hup
    | cons hd tl =>
      rw [hgrid, h0] at hup
      have hrm : removeAt? (hd :: tl) 0 = some (hd, tl) := by
        simp [removeAt?]
      rw [hrm] at hup
      simp only [if_true] at hup
      rw [if_pos (by simp [MAX_SCROLLBACK]; omega)] at hup
      cases hins : insertAt? tl (min (vt.scroll_bottom - 1) tl.length)
          vt.make_row with
      | none =>
        unfold insertAt? at hins
        rw [if_pos (Nat.min_le_right _ _)] at hins
        exact absurd hins (by simp)
      | some g2 =>
        rw [hins] at hup
        simp only at hup
        cases hup
        rcases hsb : vt.scrollback with _ | ⟨s0, srest⟩
        · rw [hsb] at hfull
          simp [MAX_SCROLLBACK] at hfull
        · simp [hsb]

/-- The scrollback bound, checked on a concrete feed-and-resize run. -/
theorem c6_scrollback_bound_witness :
    runOps 2 2 [PaneOp.feedOp [0x41, 0x0A], PaneOp.resizeOp 3 3] =
      some witnessC6 ∧
    witnessC6.2.scrollback.length ≤ 1000 :=
  ⟨by decide,
   (c6_scrollback_bound 2 2 [PaneOp.feedOp [0x41, 0x0A], PaneOp.resizeOp 3 3]
      witnessC6 (by decide)).1⟩

/-! ## Claim C7: the key encoder's wire format -/

/-- **C7.** The input encoder produces the exact wire bytes: for each of
the eight modifier sets the CSI modifier parameter is
`1 + (Shift?1:0) + (Alt?2:0) + (Ctrl?4:0)`, and Ctrl-C encodes to
`[0x03]`, Alt-a to `[0x1B, 0x61]`, F5 to `ESC [ 1 5 ~`, Shift-F5 to
`ESC [ 1 5 ; 2 ~`, Up to `ESC [ A`, and Ctrl-Up to `ESC [ 1 ; 5 A`. -/
theorem c7_key_encoder_wire_format :
    (modifier_param ⟨false, false, false⟩ = 1 ∧
     modifier_param ⟨true, false, false⟩ = 1 + 1 ∧
     modifier_param ⟨false, true, false⟩ = 1 + 2 ∧
     modifier_param ⟨false, false, true⟩ = 1 + 4 ∧
     modifier_param ⟨true, true, false⟩ = 1 + 1 + 2 ∧
     modifier_param ⟨true, false, true⟩ = 1 + 1 + 4 ∧
     modifier_param ⟨false, true, true⟩ = 1 + 2 + 4 ∧
     modifier_param ⟨true, true, true⟩ = 1 + 1 + 2 + 4) ∧
    encode_key (.char 0x63) ⟨false, false, true⟩ = [0x03] ∧
    encode_key (.char 0x61) ⟨false, true, false⟩ = [0x1B, 0x61] ∧
    encode_key (.f 5) KeyMods.noMods = [0x1B, 0x5B, 0x31, 0x35, 0x7E] ∧
    encode_key (.f 5) ⟨true, false, false⟩ =
      [0x1B, 0x5B, 0x31, 0x35, 0x3B, 0x32, 0x7E] ∧
    encode_key .up KeyMods.noMods = [0x1B, 0x5B, 0x41] ∧
    encode_key .up ⟨false, false, true⟩ =
      [0x1B, 0x5B, 0x31, 0x3B, 0x35, 0x41] := by
  decide

/-! ## Claim C8: `row_text` and wide-character continuation cells -/

/-- Feeding `あA` to a 5×2 terminal leaves a wide character, its empty
continuation cell, then `A` in row 0: `row_text` renders the continuation
cell as a space, giving `あ A`, while the plain concatenation of the
stored clusters gives `あA`.  The two disagree. -/
theorem c8_counterexample :
    (runFeed 5 2 [0xE3, 0x81, 0x82, 0x41]).map
        (fun vt => (vt.row_text 0, rowTextSpec vt 0)) =
      some (some [0x3042, 0x20, 0x41], some [0x3042, 0x41]) := by
  decide

/-- **C8** (amended).  For `row < rows`, `row_text row` renders each cell
as its stored cluster except that an empty continuation cell (or a
one-space cell) renders as one space, then trims trailing whitespace; on
a row whose cells all store nonempty content this is exactly the
concatenation of the stored grapheme clusters with trailing whitespace
trimmed. -/
theorem c8_row_text (vt : VirtualTerminal) (row : Nat) (r : List Cell)
    (hrow : row < vt.rows) (hr : vt.grid[row]? = some r) :
    ((∀ c ∈ r, c.ch ≠ []) →
      vt.row_text row = some (trimEndWs (r.map (fun c => c.ch)).flatten)) ∧
    vt.row_text row = some (trimEndWs ((r.map (fun c =>
      if c.ch = [] ∨ c.ch = [0x20] then [0x20] else c.ch)).flatten)) := by
  have hgen : vt.row_text row = some (trimEndWs ((r.map (fun c =>
      if c.ch = [] ∨ c.ch = [0x20] then [0x20] else c.ch)).flatten)) := by
    unfold VirtualTerminal.row_text
    rw [if_neg (Nat.not_le.mpr hrow), hr]
  refine ⟨fun hne => ?_, hgen⟩
  rw [hgen]
  have hmap : r.map (fun c => if c.ch = [] ∨ c.ch = [0x20] then [0x20] else c.ch) =
      r.map (fun c => c.ch) := by
    apply List.map_congr_left
    intro c hc
    by_cases h1 : c.ch = [0x20]
    · rw [if_pos (Or.inr h1), h1]
    · rw [if_neg]
      simp only [not_or]
      exact ⟨hne c hc, h1⟩
  rw [hmap]

/-- The amended row-reading property on the concrete `AB` terminal. -/
theorem c8_row_text_witness :
    0 < witnessC8.rows ∧ witnessC8.grid[0]? = some witnessC8Row ∧
    (∀ c ∈ witnessC8Row, c.ch ≠ []) ∧
    witnessC8.row_text 0 =
      some (trimEndWs (witnessC8Row.map (fun c => c.ch)).flatten) :=
  ⟨by decide, by decide, by decide,
   (c8_row_text witnessC8 0 witnessC8Row (by decide) (by decide)).1 (by decide)⟩

/-! ## Claim C9: the CWD scraping debounce -/

theorem tick_scan_step (path cwd : List Nat) (j : Nat) (hne : path ≠ cwd)
    (hsh : path.length ≤ cwd.length) :
    tick none (some path) none cwd j =
      if 16 ≤ j + 1 then (path, 0) else (cwd, j + 1) := by
  simp only [tick, tick_scan]
  rw [if_neg hne, if_neg (Nat.not_lt.mpr hsh)]

theorem tickIter_stay (path cwd : List Nat) (hne : path ≠ cwd)
    (hsh : path.length ≤ cwd.length) :
    ∀ k j, j + k ≤ 15 → tickIter path k (cwd, j) = (cwd, j + k) := by
  intro k
  induction k with
  | zero => intro j hj; rfl
  | succ n ih =>
    intro j hj
    show tickIter path n (tick none (some path) none cwd j) = _
    rw [tick_scan_step path cwd j hne hsh, if_neg (by omega)]
    rw [ih (j + 1) (by omega)]
    simp only [Prod.mk.injEq, true_and]
    omega

theorem tickIter_adopt (path cwd : List Nat) (hne : path ≠ cwd)
    (hsh : path.length ≤ cwd.length) :
    ∀ k j, j + k = 16 → 1 ≤ k → tickIter path k (cwd, j) = (path, 0) := by
  intro k
  induction k with
  | zero => intro j hj hk; omega
  | succ n ih =>
    intro j hj hk
    show tickIter path n (tick none (some path) none cwd j) = _
    rw [tick_scan_step path cwd j hne hsh]
    cases n with
    | zero => rw [if_pos (by omega)]; rfl
    | succ m =>
      rw [if_neg (by omega)]
      exact ih (j + 1) (by omega) (by omega)

/-- **C9.** On a tick whose scan picks a candidate `path ≠ cwd`: a
strictly deeper candidate is adopted immediately with the counter reset;
an equal-or-shallower one increments the counter, the candidate being
adopted exactly on the tick where the counter reaches 16, with the
counter then reset — so from a reset counter the candidate is held off
for 15 ticks and adopted on the 16th. -/
theorem c9_cwd_debounce (path cwd : List Nat) (count : Nat)
    (hne : path ≠ cwd) :
    (cwd.length < path.length →
      tick none (some path) none cwd count = (path, 0)) ∧
    (path.length ≤ cwd.length → count + 1 < 16 →
      tick none (some path) none cwd count = (cwd, count + 1)) ∧
    (path.length ≤ cwd.length → 16 ≤ count + 1 →
      tick none (some path) none cwd count = (path, 0)) ∧
    (path.length ≤ cwd.length →
      (∀ k, k ≤ 15 → tickIter path k (cwd, 0) = (cwd, k)) ∧
      tickIter path 16 (cwd, 0) = (path, 0)) := by
  refine ⟨fun hdeep => ?_, fun hsh hlt => ?_, fun hsh hge => ?_, fun hsh => ⟨?_, ?_⟩⟩
  · simp only [tick, tick_scan]
    rw [if_neg hne, if_pos hdeep]
  · rw [tick_scan_step path cwd count hne hsh, if_neg (by omega)]
  · rw [tick_scan_step path cwd count hne hsh, if_pos hge]
  · intro k hk
    have h := tickIter_stay path cwd hne hsh k 0 (by omega)
    simpa using h
  · exact tickIter_adopt path cwd hne hsh 16 0 rfl (by omega)

/-- The debounce on a concrete shallower candidate: one tick increments
the counter, sixteen ticks adopt the candidate. -/
theorem c9_cwd_debounce_witness :
    tick none (some [2]) none [1] 0 = ([1], 1) ∧
    tickIter [2] 16 ([1], 0) = ([2], 0) :=
  ⟨(c9_cwd_debounce [2] [1] 0 (by decide)).2.1 (by decide) (by decide),
   ((c9_cwd_debounce [2] [1] 0 (by decide)).2.2.2 (by decide)).2⟩

/-! ## Claim C10: malformed OSC 7 leaves `reported_cwd` unchanged -/

theorem applyActs_cwdEq {vt vt' : VirtualTerminal} :
    ∀ {acts : List Act}, (∀ a ∈ acts, a.setsCwd = false) →
      applyActs vt acts = some vt' → vt'.reported_cwd = vt.reported_cwd := by
  suffices hgen : ∀ (acts : List Act) (v0 v1 : VirtualTerminal),
      (∀ a ∈ acts, a.setsCwd = false) →
      applyActs v0 acts = some v1 → v1.reported_cwd = v0.reported_cwd by
    intro acts hC h
    exact hgen acts vt vt' hC h
  intro acts
  induction acts with
  | nil => intro v0 v1 _ h; cases h; rfl
  | cons a rest ih =>
    intro v0 v1 hC h
    unfold applyActs at h
    rw [List.foldlM_cons] at h
    cases ha : applyAct v0 a with
    | none => rw [ha] at h; exact absurd h (by simp)
    | some v2 =>
      rw [ha] at h
      rw [ih v2 v1 (fun z hz => hC z (by simp [hz])) h]
      exact applyAct_cwdEq (hC a (by simp)) ha

/-- **C10.** An OSC sequence with selector 7 whose payload is not valid
UTF-8, does not start with `file://`, or has no `/` after that prefix,
leaves `reported_cwd` unchanged; and across any `feed`, `reported_cwd`
changes only if the parsed action trace contains an action that sets it —
a well-formed OSC 7 report or a full reset (`ESC c`). -/
theorem c10_osc7_error_handling (vt vt' : VirtualTerminal)
    (uri : List Nat) (rest : List (List Nat))
    (hmal : utf8Decode uri = none ∨ fileScheme.isPrefixOf uri = false ∨
      (uri.drop 7).any (fun b => b = 0x2F) = false)
    (hosc : vt.osc_dispatch ([0x37] :: uri :: rest) = some vt') :
    vt'.reported_cwd = vt.reported_cwd ∧
    (∀ (p : PState) (bytes : List Nat) (st : PState × VirtualTerminal),
      feed (p, vt) bytes = some st →
      st.2.reported_cwd ≠ vt.reported_cwd →
      ∃ a ∈ parseTrace p bytes, a.setsCwd = true) := by
  constructor
  · have hwf : osc7WellFormed ([0x37] :: uri :: rest) = false := by
      unfold osc7WellFormed
      simp only [List.head?_cons]
      rcases hmal with h1 | h1 | h1 <;> simp [h1]
    exact osc_dispatch_cwd hwf hosc
  · intro p bytes st hfeed hne
    by_contra hno
    push_neg at hno
    have hall : ∀ a ∈ parseTrace p bytes, a.setsCwd = false := by
      intro a ha
      have := hno a ha
      simpa using this
    rw [feed_decompose bytes p vt] at hfeed
    cases happ : applyActs vt (parseTrace p bytes) with
    | none => rw [happ] at hfeed; exact absurd hfeed (by simp)
    | some v =>
      rw [happ] at hfeed
      simp only [Option.map_some'] at hfeed
      cases hfeed
      exact hne (applyActs_cwdEq hall happ)

/-- The unchanged/changed behaviour of `reported_cwd` on a concrete
terminal: the degenerate `file://a` report is ignored, the well-formed
`file://h/x` report goes through an action that sets the CWD. -/
theorem c10_osc7_error_handling_witness :
    witnessC10'.reported_cwd = witnessC10.reported_cwd ∧
    (∃ a ∈ parseTrace PState.ground oscBytesC10, a.setsCwd = true) :=
  ⟨(c10_osc7_error_handling witnessC10 witnessC10' uriC10 []
      (Or.inr (Or.inr (by decide))) (by decide)).1,
   (c10_osc7_error_handling witnessC10 witnessC10' uriC10 []
      (Or.inr (Or.inr (by decide))) (by decide)).2 PState.ground oscBytesC10
      stC10 (by decide) (by decide)⟩
